import Mathlib

/-!
# Camera, input and renderer core of `romshark/ebiten-experiment`

A shallow embedding of `game/game.go` (package `game`) and of
`pkg/rand/rand.go` (package `rand`).

Modelling conventions

* Go `float64` values are modelled by exact rationals `ℚ`: the arithmetic
  is the real arithmetic the source text denotes; rounding, infinities and
  NaN are outside the model.  A division by zero, which in Go yields an
  infinity or NaN, is therefore outside the model too: the value Lean gives
  `x / 0` is not Go's.  `float64(n)` for an `int` `n` is the cast `(n : ℚ)`.
* `int(math.Floor(..))` and `int(math.Ceil(..))` in `Game.Draw` are
  `Int.floor` and `Int.ceil` followed by the conversion to the 64-bit `int`
  (`floatToInt`, `Game.edgeToTile`), which covers the values that do not fit
  and the non-finite viewport edges of `Zoom = 0`.
* In package `game` the other Go `int` values are modelled by `Int` (no
  wrap-around); they are tile counts and pixel coordinates.  In package
  `rand`, whose `IntRange` subtracts two arbitrary `int` arguments, `int` is
  the 64-bit two's complement type and every arithmetic result is wrapped.
* Pointer receivers that are mutated (`*Camera`, `*Input`) become explicit
  state passing: a function returns the new value of everything it writes.
* A run-time panic is the result `none`.
* The host library (`ebiten`) is modelled by the record `Host` holding the
  values its sampling functions return in one frame; the random draws of
  `math/rand` are a parameter.
-/

namespace game

/-! ## Constants (`game.go` 337-340) -/

/-- Source constant `TileSize = 32`. -/
def TileSize : Int := 32

/-- Source constant `NumGrassVariations = 8`. -/
def NumGrassVariations : Int := 8

/-! ## Data model (`game.go` 13-51, 345-347) -/

/-- Source type `Config`: six integer tuning knobs. -/
structure Config where
  MinZoom : Int
  MaxZoom : Int
  ZoomSpeed : Int
  ZoomFriction : Int
  PanSpeed : Int
  PanFriction : Int
deriving DecidableEq, Repr

/-- Source type `Camera`. -/
structure Camera where
  X : ℚ
  Y : ℚ
  Zoom : ℚ
  VelX : ℚ
  VelY : ℚ
  ZoomVel : ℚ
  screenW : Int
  screenH : Int
deriving DecidableEq, Repr

/-- Source type `Input`. -/
structure Input where
  mouseX : Int
  mouseY : Int
  prevMouseX : Int
  prevMouseY : Int
  mousePressed : Bool
  wasdVelX : ℚ
  wasdVelY : ℚ
  dragStartMouseX : Int
  dragStartMouseY : Int
  dragStartCameraX : ℚ
  dragStartCameraY : ℚ
  isDragging : Bool
  dragVelX : ℚ
  dragVelY : ℚ
deriving DecidableEq, Repr

/-- Source type `Tile`. -/
structure Tile where
  textureIndex : Int
deriving DecidableEq, Repr

/-- Source type `World`. -/
structure World where
  width : Int
  height : Int
  tiles : List (List Tile)
deriving DecidableEq, Repr

/-- Source function `DefaultConfig` (`game.go` 310-319). -/
def DefaultConfig : Config :=
  { MinZoom := 5, MaxZoom := 50, ZoomSpeed := 10, ZoomFriction := 20,
    PanSpeed := 1, PanFriction := 32 }

/-- Source function `NewCamera` (`game.go` 53-61). -/
def NewCamera (screenW screenH worldW worldH : Int) : Camera :=
  { X := ((worldW * TileSize : Int) : ℚ) / 2
    Y := ((worldH * TileSize : Int) : ℚ) / 2
    Zoom := 1.0
    VelX := 0
    VelY := 0
    ZoomVel := 0
    screenW := screenW
    screenH := screenH }

/-- Source function `NewInput` (`game.go` 177-179): the zero value. -/
def NewInput : Input :=
  { mouseX := 0, mouseY := 0, prevMouseX := 0, prevMouseY := 0,
    mousePressed := false, wasdVelX := 0, wasdVelY := 0,
    dragStartMouseX := 0, dragStartMouseY := 0,
    dragStartCameraX := 0, dragStartCameraY := 0,
    isDragging := false, dragVelX := 0, dragVelY := 0 }

/-! ## `Camera.Update` (`game.go` 63-145)

The body of the method is a sequence of four blocks; each block is one
definition below and `Camera.Update` is their composition in source order. -/

/-- Lines 64-77 of `Camera.Update`: keyboard acceleration, friction and
integration, executed only when the input is not dragging. -/
def Camera.panStep (c : Camera) (config : Config) (input : Input) : Camera :=
  if input.isDragging then c
  else
    let velX := c.VelX + input.wasdVelX * (config.PanSpeed : ℚ) * 0.5
    let velY := c.VelY + input.wasdVelY * (config.PanSpeed : ℚ) * 0.5
    let friction : ℚ := (config.PanFriction : ℚ) * 0.01
    let velX := velX * (1.0 - friction)
    let velY := velY * (1.0 - friction)
    { c with VelX := velX, VelY := velY, X := c.X + velX, Y := c.Y + velY }

/-- Lines 79-109 of `Camera.Update`: anchor-based dragging, or the transfer
of the drag velocity to the camera velocity once dragging has stopped.  The
two quotients by `c.Zoom` are rational; at `c.Zoom = 0` Go's quotient is an
infinity or NaN, which this definition does not represent. -/
def Camera.dragStep (c : Camera) (input : Input) : Camera × Input :=
  if input.isDragging then
    if input.dragStartMouseX = input.mouseX ∧ input.dragStartMouseY = input.mouseY then
      (c, { input with dragStartCameraX := c.X, dragStartCameraY := c.Y })
    else
      let mouseDeltaX : ℚ := ((input.mouseX - input.dragStartMouseX : Int) : ℚ)
      let mouseDeltaY : ℚ := ((input.mouseY - input.dragStartMouseY : Int) : ℚ)
      let worldDeltaX := -mouseDeltaX / c.Zoom
      let worldDeltaY := -mouseDeltaY / c.Zoom
      let newX := input.dragStartCameraX + worldDeltaX
      let newY := input.dragStartCameraY + worldDeltaY
      ({ c with X := newX, Y := newY },
       { input with dragVelX := newX - c.X, dragVelY := newY - c.Y })
  else if input.dragVelX ≠ 0 ∨ input.dragVelY ≠ 0 then
    ({ c with VelX := input.dragVelX * 8.0, VelY := input.dragVelY * 8.0 },
     { input with dragVelX := 0, dragVelY := 0 })
  else (c, input)

/-- Lines 111-123 of `Camera.Update`: zoom friction, integration and clamp. -/
def Camera.zoomStep (c : Camera) (config : Config) : Camera :=
  let zoomVel := c.ZoomVel * (1.0 - (config.ZoomFriction : ℚ) * 0.01)
  let zoom := c.Zoom + zoomVel
  let minZoom : ℚ := (config.MinZoom : ℚ) * 0.1
  let maxZoom : ℚ := (config.MaxZoom : ℚ) * 0.1
  let zoom := if zoom < minZoom then minZoom else zoom
  let zoom := if zoom > maxZoom then maxZoom else zoom
  { c with ZoomVel := zoomVel, Zoom := zoom }

/-- Lines 125-144 of `Camera.Update`: the four bounds checks on the camera
centre, each of which also zeroes the velocity of its axis.  The products
`worldW * TileSize` and `worldH * TileSize` are exact; Go's `int` product
wraps around from `worldW = 2^58` on. -/
def Camera.clampStep (c : Camera) (worldW worldH : Int) : Camera :=
  let worldWidth : ℚ := ((worldW * TileSize : Int) : ℚ)
  let worldHeight : ℚ := ((worldH * TileSize : Int) : ℚ)
  let c := if c.X < 0 then { c with X := 0, VelX := 0 } else c
  let c := if c.X > worldWidth then { c with X := worldWidth, VelX := 0 } else c
  let c := if c.Y < 0 then { c with Y := 0, VelY := 0 } else c
  let c := if c.Y > worldHeight then { c with Y := worldHeight, VelY := 0 } else c
  c

/-- The camera and input as they stand when control reaches line 125 of
`Camera.Update`, that is before the bounds checks. -/
def Camera.beforeClamp (c : Camera) (config : Config) (input : Input) : Camera × Input :=
  let c1 := c.panStep config input
  let r := c1.dragStep input
  (r.1.zoomStep config, r.2)

/-- Source method `(*Camera).Update` (`game.go` 63-145).  Returns the new
camera and the new input (the method writes the drag fields of `*Input`). -/
def Camera.Update (c : Camera) (config : Config) (input : Input)
    (worldW worldH : Int) : Camera × Input :=
  let r := c.beforeClamp config input
  (r.1.clampStep worldW worldH, r.2)

/-- Source method `(*Camera).UpdateScreenSize` (`game.go` 147-150). -/
def Camera.UpdateScreenSize (c : Camera) (w h : Int) : Camera :=
  { c with screenW := w, screenH := h }

/-! ## World construction (`game.go` 152-175) -/

/-- Source function `NewWorld`.  `rnd k` is the value returned by the
`k`-th call of `rand.Intn(NumGrassVariations)`, counted from zero in the
order of the two loops.  `none` stands for the run-time panic of `make`
on a negative length: `make([][]Tile, height)` for the rows and, when at
least one row is built, `make([]Tile, width)`. -/
def NewWorld (width height : Int) (rnd : Nat → Int) : Option World :=
  if height < 0 then none
  else if 0 < height ∧ width < 0 then none
  else
    some
      { width := width
        height := height
        tiles :=
          (List.range height.toNat).map fun y =>
            (List.range width.toNat).map fun x =>
              ({ textureIndex := rnd (y * width.toNat + x) } : Tile) }

/-- The index expression `world.tiles[y][x]` of `Game.Draw`; `none` stands
for the run-time panic on an index out of range. -/
def World.tileAt (w : World) (x y : Int) : Option Tile :=
  if y < 0 ∨ x < 0 then none
  else
    match w.tiles[y.toNat]? with
    | none => none
    | some row => row[x.toNat]?

/-! ## Input sampling (`game.go` 181-227) -/

/-- What the host library reports during one frame: the results of
`ebiten.CursorPosition`, `inpututil.IsMouseButtonJustPressed`,
`inpututil.IsMouseButtonJustReleased`, `ebiten.IsMouseButtonPressed` (left
button), `ebiten.IsKeyPressed` for the four keys, and the second result of
`ebiten.Wheel`. -/
structure Host where
  cursorX : Int
  cursorY : Int
  mouseJustPressed : Bool
  mouseJustReleased : Bool
  mousePressed : Bool
  keyA : Bool
  keyD : Bool
  keyW : Bool
  keyS : Bool
  wheelY : ℚ
deriving DecidableEq, Repr

/-- Source method `(*Input).Update` (`game.go` 181-219). -/
def Input.Update (i : Input) (h : Host) : Input :=
  let i := { i with prevMouseX := i.mouseX, prevMouseY := i.mouseY }
  let i := { i with mouseX := h.cursorX, mouseY := h.cursorY }
  let i := { i with mousePressed := h.mousePressed }
  let i :=
    if h.mouseJustPressed then
      { i with isDragging := true, dragStartMouseX := i.mouseX, dragStartMouseY := i.mouseY }
    else i
  let i := if h.mouseJustReleased then { i with isDragging := false } else i
  let i := { i with wasdVelX := 0, wasdVelY := 0 }
  let i := if h.keyA then { i with wasdVelX := -1 } else i
  let i := if h.keyD then { i with wasdVelX := 1 } else i
  let i := if h.keyW then { i with wasdVelY := -1 } else i
  let i := if h.keyS then { i with wasdVelY := 1 } else i
  i

/-- Source method `(*Input).HandleZoom` (`game.go` 221-227); it reads the
wheel and writes the camera only. -/
def Input.HandleZoom (_i : Input) (camera : Camera) (config : Config) (h : Host) : Camera :=
  let yOffset := h.wheelY
  if yOffset ≠ 0 then
    let zoomFactor : ℚ := (config.ZoomSpeed : ℚ) * 0.001
    { camera with ZoomVel := camera.ZoomVel + yOffset * zoomFactor }
  else camera

/-! ## The game object (`game.go` 45-51, 229-335) -/

/-- Source type `Game`; the pointer fields are held by value. -/
structure Game where
  world : World
  camera : Camera
  input : Input
  config : Config
  screenWidth : Int
  screenHeight : Int
deriving DecidableEq, Repr

/-- Source function `NewGame` (`game.go` 321-335); a `nil` config is `none`.
The result is `none` when `NewWorld` panics. -/
def NewGame (worldSizeX worldSizeY : Int) (c : Option Config) (rnd : Nat → Int) :
    Option Game :=
  let c := match c with
    | none => DefaultConfig
    | some c => c
  match NewWorld worldSizeX worldSizeY rnd with
  | none => none
  | some world =>
    some
      { world := world
        camera := NewCamera 800 600 worldSizeX worldSizeY
        input := NewInput
        config := c
        screenWidth := 800
        screenHeight := 600 }

/-- Source method `(*Game).Update` (`game.go` 229-238). -/
def Game.Update (g : Game) (h : Host) : Game :=
  let input := g.input.Update h
  let camera := input.HandleZoom g.camera g.config h
  let r := camera.Update g.config input g.world.width g.world.height
  { g with camera := r.1, input := r.2 }

/-- Source method `(*Game).Layout` (`game.go` 300-308): the new game, the
returned pair being the two arguments unchanged. -/
def Game.Layout (g : Game) (outsideWidth outsideHeight : Int) : Game × Int × Int :=
  ({ g with screenWidth := outsideWidth, screenHeight := outsideHeight,
            camera := g.camera.UpdateScreenSize outsideWidth outsideHeight },
   outsideWidth, outsideHeight)

/-! ## Rendering (`game.go` 241-298) -/

/-- The four loop bounds of `Game.Draw`. -/
structure TileRange where
  startTileX : Int
  endTileX : Int
  startTileY : Int
  endTileY : Int
deriving DecidableEq, Repr

/-- Line 250 of `Game.Draw`: the local `leftWorld`. -/
def Game.leftWorld (g : Game) : ℚ :=
  g.camera.X - (g.screenWidth : ℚ) / (2 * g.camera.Zoom)

/-- Line 251 of `Game.Draw`: the local `rightWorld`. -/
def Game.rightWorld (g : Game) : ℚ :=
  g.camera.X + (g.screenWidth : ℚ) / (2 * g.camera.Zoom)

/-- Line 252 of `Game.Draw`: the local `topWorld`. -/
def Game.topWorld (g : Game) : ℚ :=
  g.camera.Y - (g.screenHeight : ℚ) / (2 * g.camera.Zoom)

/-- Line 253 of `Game.Draw`: the local `bottomWorld`. -/
def Game.bottomWorld (g : Game) : ℚ :=
  g.camera.Y + (g.screenHeight : ℚ) / (2 * g.camera.Zoom)

/-- Go constant `math.MinInt64`. -/
def minInt64 : Int := -(2 ^ 63)

/-- The conversion `int(f)` of a finite `float64` `f` whose value is the
integer `v` (as `math.Floor` and `math.Ceil` return): `v` itself when it fits
in the 64-bit `int`.  When it does not fit, the Go specification leaves the
result to the implementation; the definition takes the result of amd64,
`math.MinInt64`. -/
def floatToInt (v : Int) : Int :=
  if minInt64 ≤ v ∧ v < 2 ^ 63 then v else minInt64

/-- One of the four conversions of lines 256-259 of `Game.Draw`, `v` being
the exact floor or ceiling of the viewport edge divided by `TileSize`.  With
`Zoom = 0` the quotient `screen / (2 * Zoom)` of lines 250-253 is not a
finite number (it is `+Inf`, `-Inf` or `NaN`), the edge is not one either,
and `int(..)` returns the out-of-range result. -/
def Game.edgeToTile (g : Game) (v : Int) : Int :=
  if g.camera.Zoom = 0 then minInt64 else floatToInt v

/-- Lines 255-273 of `Game.Draw`: the conversion of the world-space viewport
to tile coordinates and the clamp of the tile indices to the world. -/
def Game.tileRange (g : Game) : TileRange :=
  let startTileX : Int := g.edgeToTile (Int.floor (g.leftWorld / (TileSize : ℚ)))
  let endTileX : Int := g.edgeToTile (Int.ceil (g.rightWorld / (TileSize : ℚ)))
  let startTileY : Int := g.edgeToTile (Int.floor (g.topWorld / (TileSize : ℚ)))
  let endTileY : Int := g.edgeToTile (Int.ceil (g.bottomWorld / (TileSize : ℚ)))
  let startTileX := if startTileX < 0 then 0 else startTileX
  let endTileX := if endTileX > g.world.width then g.world.width else endTileX
  let startTileY := if startTileY < 0 then 0 else startTileY
  let endTileY := if endTileY > g.world.height then g.world.height else endTileY
  { startTileX := startTileX, endTileX := endTileX,
    startTileY := startTileY, endTileY := endTileY }

/-- The values taken by the loop variable of `for v := lo; v < hi; v++`. -/
def loopRange (lo hi : Int) : List Int :=
  (List.range (hi - lo).toNat).map fun (k : Nat) => lo + (k : Int)

/-- The pairs `(x, y)` at which the body of the two nested loops of
`Game.Draw` (lines 276-297) is executed, in execution order: `y` outer,
`x` inner. -/
def Game.visited (g : Game) : List (Int × Int) :=
  let r := g.tileRange
  (loopRange r.startTileY r.endTileY).flatMap fun y =>
    (loopRange r.startTileX r.endTileX).map fun x => (x, y)

/-- One `screen.DrawImage(texture, op)` call: the tile drawn, the texture
index looked up for it, the scale and the translation put into `op.GeoM`. -/
structure DrawCall where
  tileX : Int
  tileY : Int
  textureIndex : Int
  scale : ℚ
  screenX : ℚ
  screenY : ℚ
deriving DecidableEq, Repr

/-- Lines 278-295 of `Game.Draw`: the body of the inner loop at `(x, y)`;
`none` when the tile lookup panics. -/
def Game.drawTile (g : Game) (x y : Int) : Option DrawCall :=
  let screenW : ℚ := (g.screenWidth : ℚ)
  let screenH : ℚ := (g.screenHeight : ℚ)
  let worldX : ℚ := ((x * TileSize : Int) : ℚ)
  let worldY : ℚ := ((y * TileSize : Int) : ℚ)
  let screenX := (worldX - g.camera.X) * g.camera.Zoom + screenW / 2
  let screenY := (worldY - g.camera.Y) * g.camera.Zoom + screenH / 2
  match g.world.tileAt x y with
  | none => none
  | some tile =>
    some { tileX := x, tileY := y, textureIndex := tile.textureIndex,
           scale := g.camera.Zoom, screenX := screenX, screenY := screenY }

/-- The loop of `Game.Draw` over a list of tile positions. -/
def Game.drawAll (g : Game) : List (Int × Int) → Option (List DrawCall)
  | [] => some []
  | p :: rest =>
    match g.drawTile p.1 p.2 with
    | none => none
    | some call =>
      match g.drawAll rest with
      | none => none
      | some calls => some (call :: calls)

/-- Source method `(*Game).Draw` (`game.go` 241-298): the draw calls issued
in one frame, in order; `none` when a tile lookup panics. -/
def Game.Draw (g : Game) : Option (List DrawCall) :=
  g.drawAll g.visited

/-- The drag fields of an input: anchor pointer, anchor camera, drag flag
and drag velocity. -/
def Input.dragFields (i : Input) : Int × Int × ℚ × ℚ × Bool × ℚ × ℚ :=
  (i.dragStartMouseX, i.dragStartMouseY, i.dragStartCameraX, i.dragStartCameraY,
   i.isDragging, i.dragVelX, i.dragVelY)

/-! ## Concrete states used as witnesses and counterexamples -/

/-- A camera coasting to the right at 5 px per frame, 100 px from the west
edge of the world. -/
def coastingCamera : Camera :=
  { X := 100, Y := 50, Zoom := 1, VelX := 5, VelY := 0, ZoomVel := 0,
    screenW := 800, screenH := 600 }

/-- A drag in progress: pressed at (400, 300) with the camera at (100, 50),
pointer now at (500, 300). -/
def dragInput : Input :=
  { NewInput with
    isDragging := true, mousePressed := true
    mouseX := 500, mouseY := 300, prevMouseX := 490, prevMouseY := 300
    dragStartMouseX := 400, dragStartMouseY := 300
    dragStartCameraX := 100, dragStartCameraY := 50 }

/-- A camera at rest in the north-west corner of the world. -/
def cornerCamera : Camera :=
  { X := 0, Y := 0, Zoom := 1, VelX := 0, VelY := 0, ZoomVel := 0,
    screenW := 800, screenH := 600 }

/-- No drag, keys `A` and `W` held. -/
def keysAWInput : Input :=
  { NewInput with wasdVelX := -1, wasdVelY := -1 }

/-- A 2 x 2 world as `NewWorld 2 2` builds it when the successive random
draws are 0, 1, 2, 3. -/
def smallWorld : World :=
  { width := 2, height := 2,
    tiles := [[{ textureIndex := 0 }, { textureIndex := 1 }],
              [{ textureIndex := 2 }, { textureIndex := 3 }]] }

/-- A game on `smallWorld`: default config, camera at the centre (32, 32)
with zoom 1, viewport 48 x 40. -/
def smallGame : Game :=
  { world := smallWorld
    camera := NewCamera 48 40 2 2
    input := NewInput
    config := DefaultConfig
    screenWidth := 48
    screenHeight := 40 }

/-- A 32 x 32 world (the size `main` asks for); the texture indices play no
part in the camera. -/
def mainWorld : World :=
  { width := 32, height := 32,
    tiles := List.replicate 32 (List.replicate 32 { textureIndex := 0 }) }

/-- The game as `NewGame 32 32 DefaultConfig` leaves it: camera at rest at
(512, 512), zoom 1. -/
def mainGame : Game :=
  { world := mainWorld
    camera := NewCamera 800 600 32 32
    input := NewInput
    config := DefaultConfig
    screenWidth := 800
    screenHeight := 600 }

/-- A frame in which the host reports the pointer at `(x, y)` with the left
button held, no key and no wheel; `pressed` tells whether the button went
down in this very frame. -/
def pointerFrame (x y : Int) (pressed : Bool) : Host :=
  { cursorX := x, cursorY := y, mouseJustPressed := pressed, mouseJustReleased := false,
    mousePressed := true, keyA := false, keyD := false, keyW := false, keyS := false,
    wheelY := 0 }

/-- A camera at (110, 50) that had velocity 5 on `X` when the drag began. -/
def heldCamera : Camera :=
  { X := 110, Y := 50, Zoom := 1, VelX := 5, VelY := 0, ZoomVel := 0,
    screenW := 800, screenH := 600 }

/-- A drag anchored at pointer (400, 300), camera (100, 50), with the pointer
held still at (390, 300). -/
def heldInput : Input :=
  { NewInput with
    isDragging := true, mousePressed := true
    mouseX := 390, mouseY := 300, prevMouseX := 390, prevMouseY := 300
    dragStartMouseX := 400, dragStartMouseY := 300
    dragStartCameraX := 100, dragStartCameraY := 50 }

/-- A camera at (15, 50) moving left at 20 px per frame when the drag began. -/
def nearEdgeCamera : Camera :=
  { X := 15, Y := 50, Zoom := 1, VelX := -20, VelY := 0, ZoomVel := 0,
    screenW := 800, screenH := 600 }

/-- A drag anchored at pointer (400, 300), camera (15, 50), pointer now at
(410, 300). -/
def nearEdgeInput : Input :=
  { NewInput with
    isDragging := true, mousePressed := true
    mouseX := 410, mouseY := 300, prevMouseX := 400, prevMouseY := 300
    dragStartMouseX := 400, dragStartMouseY := 300
    dragStartCameraX := 15, dragStartCameraY := 50 }

/-- The input of the frame after `i`: same fields, the button released. -/
def released (i : Input) : Input :=
  { i with isDragging := false, mousePressed := false }

/-- The game after the frames `hs`, each frame being one `Game.Update`. -/
def Game.run (g : Game) (hs : List Host) : Game :=
  hs.foldl Game.Update g

/-- The camera one frame before the end of a drag to the left: zero
velocity, position (602, 512). -/
def lastDragCamera : Camera :=
  { X := 602, Y := 512, Zoom := 1, VelX := 0, VelY := 0, ZoomVel := 0,
    screenW := 800, screenH := 600 }

/-- The last dragged frame of a drag pressed at (400, 300) with the camera at
(512, 512): the pointer arrives at (300, 300) from (310, 300). -/
def lastDragInput : Input :=
  { NewInput with
    isDragging := true, mousePressed := true
    mouseX := 300, mouseY := 300, prevMouseX := 310, prevMouseY := 300
    dragStartMouseX := 400, dragStartMouseY := 300
    dragStartCameraX := 512, dragStartCameraY := 512
    dragVelX := 10, dragVelY := 0 }

/-- A frame in which the host reports the keys `A` and `D` both held, the
pointer at (0, 0), no button and no wheel. -/
def keysADFrame : Host :=
  { cursorX := 0, cursorY := 0, mouseJustPressed := false, mouseJustReleased := false,
    mousePressed := false, keyA := true, keyD := true, keyW := false, keyS := false,
    wheelY := 0 }

/-- No drag, key `D` held. -/
def keyDInput : Input :=
  { NewInput with wasdVelX := 1 }

/-- The initial camera of a 32 x 32 world, moving right at 1.5625 px per
frame. -/
def fastCamera : Camera :=
  { NewCamera 800 600 32 32 with VelX := 1.5625 }

/-- A frame in which the host reports one wheel notch up (`yOffset = +1`),
the pointer at (0, 0), no button and no key. -/
def wheelUpFrame : Host :=
  { cursorX := 0, cursorY := 0, mouseJustPressed := false, mouseJustReleased := false,
    mousePressed := false, keyA := false, keyD := false, keyW := false, keyS := false,
    wheelY := 1 }

/-- A frame in which the host reports nothing: pointer at (0, 0), no button,
no key, no wheel. -/
def idleFrame : Host :=
  { cursorX := 0, cursorY := 0, mouseJustPressed := false, mouseJustReleased := false,
    mousePressed := false, keyA := false, keyD := false, keyW := false, keyS := false,
    wheelY := 0 }

/-- Line 283 of `Game.Draw` as a function of the world abscissa: the screen
abscissa `(worldX - camera.X) * camera.Zoom + screenW / 2`. -/
def Game.toScreenX (g : Game) (worldX : ℚ) : ℚ :=
  (worldX - g.camera.X) * g.camera.Zoom + (g.screenWidth : ℚ) / 2

/-- Line 284 of `Game.Draw` as a function of the world ordinate: the screen
ordinate `(worldY - camera.Y) * camera.Zoom + screenH / 2`. -/
def Game.toScreenY (g : Game) (worldY : ℚ) : ℚ :=
  (worldY - g.camera.Y) * g.camera.Zoom + (g.screenHeight : ℚ) / 2

/-- A game on `smallWorld` whose 16 x 16 viewport, centred at (48, 48), lies
inside the south-east tile. -/
def cornerViewGame : Game :=
  { world := smallWorld
    camera := { NewCamera 16 16 2 2 with X := 48, Y := 48 }
    input := NewInput
    config := DefaultConfig
    screenWidth := 16
    screenHeight := 16 }

/-- The frames of the drag scenario: the button goes down at (400, 300),
then the pointer moves 10 px to the left in each of 10 frames, ending at
(300, 300), the button held throughout. -/
def dragScenarioFrames : List Host :=
  [pointerFrame 400 300 true, pointerFrame 390 300 false, pointerFrame 380 300 false,
   pointerFrame 370 300 false, pointerFrame 360 300 false, pointerFrame 350 300 false,
   pointerFrame 340 300 false, pointerFrame 330 300 false, pointerFrame 320 300 false,
   pointerFrame 310 300 false, pointerFrame 300 300 false]

/-- The game `smallGame` with the camera zoomed out to `2^-70`. -/
def tinyZoomGame : Game :=
  { smallGame with camera := { smallGame.camera with Zoom := 1 / 2 ^ 70 } }

/-- The default config with `MinZoom` set to 0. -/
def zeroMinZoomConfig : Config :=
  { DefaultConfig with MinZoom := 0 }

/-- The game as `NewGame(32, 32, &zeroMinZoomConfig)` leaves it. -/
def zeroMinZoomGame : Game :=
  { mainGame with config := zeroMinZoomConfig }

/-- A frame in which the host reports the wheel delta `y`, the pointer at
(0, 0), no button and no key. -/
def wheelFrame (y : ℚ) : Host :=
  { cursorX := 0, cursorY := 0, mouseJustPressed := false, mouseJustReleased := false,
    mousePressed := false, keyA := false, keyD := false, keyW := false, keyS := false,
    wheelY := y }

end game

/-! # Package `rand` (`pkg/rand/rand.go`)

`IntRange` takes two arbitrary `int` arguments and subtracts them, so here
the machine integer is modelled with its wrap-around: `int` is the 64-bit
two's complement type of the 64-bit targets. -/

namespace rand

/-- The number of bits of `int`. -/
def intBits : Nat := 64

/-- Go constant `math.MinInt`. -/
def minInt : Int := -(2 ^ (intBits - 1))

/-- Go constant `math.MaxInt`. -/
def maxInt : Int := 2 ^ (intBits - 1) - 1

/-- The `int` value of an exact integer result: two's complement wrap-around
into `[minInt, maxInt]`. -/
def wrap (n : Int) : Int :=
  (n + 2 ^ (intBits - 1)) % 2 ^ intBits - 2 ^ (intBits - 1)

/-- Source type `RNG`.  The wrapped `math/rand/v2` generator is represented
by `draw`: `draw n` is the value its `IntN(n)` produces for `n > 0`. -/
structure RNG where
  draw : Int → Int

/-- The library method `(*rand.Rand).IntN` called on `r.src`: it panics
(`none`) when `n <= 0` and otherwise returns the draw. -/
def RNG.srcIntN (r : RNG) (n : Int) : Option Int :=
  if n ≤ 0 then none else some (r.draw n)

/-- Source method `(*RNG).Int` (`rand.go` 26-29). -/
def RNG.Int (r : RNG) (max : Int) : Option Int :=
  r.srcIntN max

/-- Source method `(*RNG).IntRange` (`rand.go` 31-37); `none` is a panic,
its own or that of `IntN`. -/
def RNG.IntRange (r : RNG) (min max : ℤ) : Option ℤ :=
  if max ≤ min then none
  else
    match r.srcIntN (wrap (max - min)) with
    | none => none
    | some v => some (wrap (min + v))

/-- A generator whose every draw is 0. -/
def zeroRNG : RNG :=
  { draw := fun _ => 0 }

end rand

namespace game

/-! ## Position bounds -/

/-- The state `zeroMinZoomGame` is what `NewGame(32, 32, &Config{MinZoom: 0, ...})`
returns (all random draws taken as 0). -/
theorem zeroMinZoomGame_eq_NewGame :
    NewGame 32 32 (some zeroMinZoomConfig) (fun _ => 0) = some zeroMinZoomGame := rfl

/-- C1, the code at the failing input: the game of a 32 x 32 world with
`MinZoom = 0`; frame 1 has wheel delta -1000, in frame 2 the button goes down
at (400, 300), in frame 3 the pointer is at (400, 310) with the button held.
After frame 2 the zoom is clamped to exactly 0, the camera is at (512, 512)
and a drag is in progress.  Frame 3 is a dragged frame with the pointer away
from the press position, so `Camera.Update` runs lines 87-101, and there
`mouseDeltaX = 0` and `c.Zoom = 0`: line 90 evaluates `-mouseDeltaX / c.Zoom`
with both operands zero.  In Go that quotient is NaN; it becomes `c.X`, and
none of the comparisons of lines 129-136 is true of NaN. -/
theorem drag_divides_zero_by_zero :
    (zeroMinZoomGame.run [wheelFrame (-1000), pointerFrame 400 300 true]).camera.Zoom = 0 ∧
    (zeroMinZoomGame.run [wheelFrame (-1000), pointerFrame 400 300 true]).camera.X = 512 ∧
    ((zeroMinZoomGame.run [wheelFrame (-1000), pointerFrame 400 300 true]).input.Update
        (pointerFrame 400 310 false)).isDragging = true ∧
    ¬ (((zeroMinZoomGame.run [wheelFrame (-1000), pointerFrame 400 300 true]).input.Update
          (pointerFrame 400 310 false)).dragStartMouseX =
        ((zeroMinZoomGame.run [wheelFrame (-1000), pointerFrame 400 300 true]).input.Update
          (pointerFrame 400 310 false)).mouseX ∧
       ((zeroMinZoomGame.run [wheelFrame (-1000), pointerFrame 400 300 true]).input.Update
          (pointerFrame 400 310 false)).dragStartMouseY =
        ((zeroMinZoomGame.run [wheelFrame (-1000), pointerFrame 400 300 true]).input.Update
          (pointerFrame 400 310 false)).mouseY) ∧
    -(((((zeroMinZoomGame.run [wheelFrame (-1000), pointerFrame 400 300 true]).input.Update
          (pointerFrame 400 310 false)).mouseX -
        ((zeroMinZoomGame.run [wheelFrame (-1000), pointerFrame 400 300 true]).input.Update
          (pointerFrame 400 310 false)).dragStartMouseX : Int) : ℚ)) = 0 ∧
    (((zeroMinZoomGame.run [wheelFrame (-1000), pointerFrame 400 300 true]).input.Update
        (pointerFrame 400 310 false)).HandleZoom
      (zeroMinZoomGame.run [wheelFrame (-1000), pointerFrame 400 300 true]).camera
      zeroMinZoomConfig (pointerFrame 400 310 false)).Zoom = 0 := by
  norm_num [Game.run, Game.Update, Input.Update, Input.HandleZoom, Camera.Update,
    Camera.beforeClamp, Camera.panStep, Camera.dragStep, Camera.zoomStep,
    Camera.clampStep, zeroMinZoomGame, zeroMinZoomConfig, mainGame, mainWorld, pointerFrame,
    wheelFrame, NewCamera, NewInput, DefaultConfig, TileSize]

/-! ## Zoom bounds -/

theorem clampStep_Zoom (c : Camera) (worldW worldH : Int) :
    (c.clampStep worldW worldH).Zoom = c.Zoom := by
  unfold Camera.clampStep
  dsimp only
  split_ifs <;> rfl

theorem clampStep_ZoomVel (c : Camera) (worldW worldH : Int) :
    (c.clampStep worldW worldH).ZoomVel = c.ZoomVel := by
  unfold Camera.clampStep
  dsimp only
  split_ifs <;> rfl

theorem zoomStep_bounds (c : Camera) (config : Config)
    (h : config.MinZoom ≤ config.MaxZoom) :
    (config.MinZoom : ℚ) * 0.1 ≤ (c.zoomStep config).Zoom ∧
      (c.zoomStep config).Zoom ≤ (config.MaxZoom : ℚ) * 0.1 := by
  have hq : (config.MinZoom : ℚ) * 0.1 ≤ (config.MaxZoom : ℚ) * 0.1 := by
    have : (config.MinZoom : ℚ) ≤ (config.MaxZoom : ℚ) := by exact_mod_cast h
    linarith
  unfold Camera.zoomStep
  dsimp only
  split_ifs <;> constructor <;> linarith

/-- C2 (zoom bounds): for every config with `MinZoom ≤ MaxZoom`, every input
and every camera state, the camera returned by `Camera.Update` satisfies
`MinZoom * 0.1 ≤ Zoom ≤ MaxZoom * 0.1`. -/
theorem update_zoom_bounds (c : Camera) (config : Config) (input : Input)
    (worldW worldH : Int) (h : config.MinZoom ≤ config.MaxZoom) :
    (config.MinZoom : ℚ) * 0.1 ≤ (c.Update config input worldW worldH).1.Zoom ∧
    (c.Update config input worldW worldH).1.Zoom ≤ (config.MaxZoom : ℚ) * 0.1 := by
  have hz : (c.Update config input worldW worldH).1.Zoom =
      (((c.panStep config input).dragStep input).1.zoomStep config).Zoom := by
    simp only [Camera.Update, Camera.beforeClamp, clampStep_Zoom]
  rw [hz]
  exact zoomStep_bounds _ config h

/-- Witness of C2: the default config, a camera with zoom 40 zooming in. -/
theorem update_zoom_bounds_witness :
    DefaultConfig.MinZoom ≤ DefaultConfig.MaxZoom ∧
    (DefaultConfig.MinZoom : ℚ) * 0.1 ≤
      (({ coastingCamera with Zoom := 40, ZoomVel := 3 } : Camera).Update
        DefaultConfig dragInput 32 32).1.Zoom ∧
    (({ coastingCamera with Zoom := 40, ZoomVel := 3 } : Camera).Update
        DefaultConfig dragInput 32 32).1.Zoom ≤ (DefaultConfig.MaxZoom : ℚ) * 0.1 :=
  ⟨by decide, update_zoom_bounds _ DefaultConfig dragInput 32 32 (by decide)⟩

/-! ## Wall stop -/

/-- Counterexample to C3 as stated: a drag that brings the camera exactly
onto the west edge (`X = 0`) fires no bounds check, so the velocity the
camera had before the drag (5) is still there. -/
theorem wall_stop_counterexample :
    ¬ (((coastingCamera.Update DefaultConfig dragInput 32 32).1.X = 0 ∨
        (coastingCamera.Update DefaultConfig dragInput 32 32).1.X =
          (((32 : Int) * TileSize : Int) : ℚ)) →
       (coastingCamera.Update DefaultConfig dragInput 32 32).1.VelX = 0) := by
  norm_num [Camera.Update, Camera.beforeClamp, Camera.panStep, Camera.dragStep,
    Camera.zoomStep, Camera.clampStep, coastingCamera, dragInput, NewInput,
    DefaultConfig, TileSize]

theorem clampStep_VelX_of_fired (c : Camera) (worldW worldH : Int)
    (h : c.X < 0 ∨ c.X > ((worldW * TileSize : Int) : ℚ)) :
    (c.clampStep worldW worldH).VelX = 0 := by
  unfold Camera.clampStep
  dsimp only
  split_ifs <;> simp_all

theorem clampStep_VelY_of_fired (c : Camera) (worldW worldH : Int)
    (h : c.Y < 0 ∨ c.Y > ((worldH * TileSize : Int) : ℚ)) :
    (c.clampStep worldW worldH).VelY = 0 := by
  unfold Camera.clampStep
  dsimp only
  split_ifs <;> simp_all

/-- C3 (wall stop), amended: if after `Camera.Update` the camera is on an
edge of the world on some axis (`X = 0` or `X = W * TileSize`) and a bounds
check of that axis fired, i.e. the position reaching the bounds checks was
`< 0` or `> W * TileSize`, then the velocity of that axis is 0 after the
update; the same for `Y`, `H` and `VelY`. -/
theorem update_wall_stop_when_clamped (c : Camera) (config : Config) (input : Input)
    (worldW worldH : Int) :
    (((c.Update config input worldW worldH).1.X = 0 ∨
        (c.Update config input worldW worldH).1.X = ((worldW * TileSize : Int) : ℚ)) →
      ((c.beforeClamp config input).1.X < 0 ∨
        (c.beforeClamp config input).1.X > ((worldW * TileSize : Int) : ℚ)) →
      (c.Update config input worldW worldH).1.VelX = 0) ∧
    (((c.Update config input worldW worldH).1.Y = 0 ∨
        (c.Update config input worldW worldH).1.Y = ((worldH * TileSize : Int) : ℚ)) →
      ((c.beforeClamp config input).1.Y < 0 ∨
        (c.beforeClamp config input).1.Y > ((worldH * TileSize : Int) : ℚ)) →
      (c.Update config input worldW worldH).1.VelY = 0) :=
  ⟨fun _ h => clampStep_VelX_of_fired _ worldW worldH h,
   fun _ h => clampStep_VelY_of_fired _ worldW worldH h⟩

/-- Witness of the amended C3: a camera in the north-west corner with `A`
and `W` held is pushed out on both axes, is put back on both edges and has
both velocities zeroed. -/
theorem update_wall_stop_when_clamped_witness :
    ((cornerCamera.Update DefaultConfig keysAWInput 32 32).1.X = 0 ∧
      (cornerCamera.beforeClamp DefaultConfig keysAWInput).1.X < 0 ∧
      (cornerCamera.Update DefaultConfig keysAWInput 32 32).1.VelX = 0) ∧
    ((cornerCamera.Update DefaultConfig keysAWInput 32 32).1.Y = 0 ∧
      (cornerCamera.beforeClamp DefaultConfig keysAWInput).1.Y < 0 ∧
      (cornerCamera.Update DefaultConfig keysAWInput 32 32).1.VelY = 0) := by
  have hX0 : (cornerCamera.Update DefaultConfig keysAWInput 32 32).1.X = 0 := by
    norm_num [Camera.Update, Camera.beforeClamp, Camera.panStep, Camera.dragStep,
      Camera.zoomStep, Camera.clampStep, cornerCamera, keysAWInput, NewInput,
      DefaultConfig, TileSize]
  have hY0 : (cornerCamera.Update DefaultConfig keysAWInput 32 32).1.Y = 0 := by
    norm_num [Camera.Update, Camera.beforeClamp, Camera.panStep, Camera.dragStep,
      Camera.zoomStep, Camera.clampStep, cornerCamera, keysAWInput, NewInput,
      DefaultConfig, TileSize]
  have hXpre : (cornerCamera.beforeClamp DefaultConfig keysAWInput).1.X < 0 := by
    norm_num [Camera.beforeClamp, Camera.panStep, Camera.dragStep,
      Camera.zoomStep, cornerCamera, keysAWInput, NewInput, DefaultConfig]
  have hYpre : (cornerCamera.beforeClamp DefaultConfig keysAWInput).1.Y < 0 := by
    norm_num [Camera.beforeClamp, Camera.panStep, Camera.dragStep,
      Camera.zoomStep, cornerCamera, keysAWInput, NewInput, DefaultConfig]
  exact ⟨⟨hX0, hXpre,
      (update_wall_stop_when_clamped cornerCamera DefaultConfig keysAWInput 32 32).1
        (Or.inl hX0) (Or.inl hXpre)⟩,
    ⟨hY0, hYpre,
      (update_wall_stop_when_clamped cornerCamera DefaultConfig keysAWInput 32 32).2
        (Or.inl hY0) (Or.inl hYpre)⟩⟩

/-! ## Drag exclusivity -/

/-- C10 (drag exclusivity): for every camera state, config and world size,
two `Camera.Update` calls on dragging inputs that differ only in the keyboard
vector `(wasdVelX, wasdVelY)` return the same camera (position, velocities,
zoom) and the same drag fields. -/
theorem update_drag_ignores_keyboard (c : Camera) (config : Config) (input : Input)
    (worldW worldH : Int) (kx ky : ℚ) (hdrag : input.isDragging = true) :
    (c.Update config { input with wasdVelX := kx, wasdVelY := ky } worldW worldH).1 =
      (c.Update config input worldW worldH).1 ∧
    (c.Update config { input with wasdVelX := kx, wasdVelY := ky } worldW worldH).2.dragFields =
      (c.Update config input worldW worldH).2.dragFields := by
  simp only [Camera.Update, Camera.beforeClamp, Camera.panStep, Camera.dragStep, hdrag,
    if_true]
  split_ifs <;> simp [Input.dragFields]

/-- Witness of C10: the drag of `dragInput` with `D` and `S` held. -/
theorem update_drag_ignores_keyboard_witness :
    dragInput.isDragging = true ∧
    (coastingCamera.Update DefaultConfig
        { dragInput with wasdVelX := 1, wasdVelY := 1 } 32 32).1 =
      (coastingCamera.Update DefaultConfig dragInput 32 32).1 ∧
    (coastingCamera.Update DefaultConfig
        { dragInput with wasdVelX := 1, wasdVelY := 1 } 32 32).2.dragFields =
      (coastingCamera.Update DefaultConfig dragInput 32 32).2.dragFields :=
  ⟨rfl, update_drag_ignores_keyboard coastingCamera DefaultConfig dragInput 32 32 1 1 rfl⟩

/-! ## The tiles visited by `Game.Draw` -/

theorem mem_loopRange (lo hi x : Int) : x ∈ loopRange lo hi ↔ lo ≤ x ∧ x < hi := by
  unfold loopRange
  simp only [List.mem_map, List.mem_range]
  constructor
  · rintro ⟨k, hk, rfl⟩
    omega
  · rintro ⟨h1, h2⟩
    exact ⟨(x - lo).toNat, by omega, by omega⟩

theorem length_loopRange (lo hi : Int) : (loopRange lo hi).length = (hi - lo).toNat := by
  simp [loopRange]

theorem mem_visited (g : Game) (p : Int × Int) :
    p ∈ g.visited ↔
      (g.tileRange.startTileX ≤ p.1 ∧ p.1 < g.tileRange.endTileX) ∧
        (g.tileRange.startTileY ≤ p.2 ∧ p.2 < g.tileRange.endTileY) := by
  obtain ⟨x, y⟩ := p
  simp only [Game.visited, List.mem_flatMap, List.mem_map, mem_loopRange, Prod.mk.injEq]
  constructor
  · rintro ⟨y', hy, x', hx, rfl, rfl⟩
    exact ⟨hx, hy⟩
  · rintro ⟨hx, hy⟩
    exact ⟨y, hy, x, hx, rfl, rfl⟩

theorem length_flatMap_of_const {α β : Type} (l : List α) (f : α → List β) (n : Nat)
    (h : ∀ a, (f a).length = n) : (l.flatMap f).length = l.length * n := by
  induction l with
  | nil => simp
  | cons a t ih =>
    rw [List.flatMap_cons, List.length_append, ih, h a, List.length_cons]
    ring

theorem length_visited (g : Game) :
    g.visited.length =
      (g.tileRange.endTileY - g.tileRange.startTileY).toNat *
        (g.tileRange.endTileX - g.tileRange.startTileX).toNat := by
  unfold Game.visited
  dsimp only
  rw [length_flatMap_of_const _ _ (g.tileRange.endTileX - g.tileRange.startTileX).toNat
    (fun y => by rw [List.length_map, length_loopRange]), length_loopRange]

theorem tileRange_startTileX_nonneg (g : Game) : 0 ≤ g.tileRange.startTileX := by
  simp only [Game.tileRange]
  split_ifs <;> omega

theorem tileRange_startTileY_nonneg (g : Game) : 0 ≤ g.tileRange.startTileY := by
  simp only [Game.tileRange]
  split_ifs <;> omega

theorem tileRange_endTileX_le (g : Game) : g.tileRange.endTileX ≤ g.world.width := by
  simp only [Game.tileRange]
  split_ifs <;> omega

theorem tileRange_endTileY_le (g : Game) : g.tileRange.endTileY ≤ g.world.height := by
  simp only [Game.tileRange]
  split_ifs <;> omega

theorem edgeToTile_spec (g : Game) (v : Int) (hz : g.camera.Zoom ≠ 0) :
    (-9223372036854775808 ≤ v ∧ v < 9223372036854775808 ∧ g.edgeToTile v = v) ∨
    ((v < -9223372036854775808 ∨ 9223372036854775808 ≤ v) ∧
      g.edgeToTile v = -9223372036854775808) := by
  have hmin : minInt64 = -9223372036854775808 := by norm_num [minInt64]
  have hpow : (2 : Int) ^ 63 = 9223372036854775808 := by norm_num
  unfold Game.edgeToTile floatToInt
  rw [if_neg hz, hmin, hpow]
  by_cases h : -9223372036854775808 ≤ v ∧ v < 9223372036854775808
  · rw [if_pos h]
    exact Or.inl ⟨h.1, h.2, rfl⟩
  · rw [if_neg h]
    exact Or.inr ⟨by omega, rfl⟩

theorem edgeToTile_of_zoom_zero (g : Game) (v : Int) (hz : g.camera.Zoom = 0) :
    g.edgeToTile v = -9223372036854775808 := by
  unfold Game.edgeToTile
  rw [if_pos hz]
  norm_num [minInt64]

theorem edgeToTile_le_of_nonneg (g : Game) (v : Int) (h : 0 ≤ g.edgeToTile v) :
    g.edgeToTile v = v := by
  by_cases hz : g.camera.Zoom = 0
  · rw [edgeToTile_of_zoom_zero g v hz] at h
    omega
  · rcases edgeToTile_spec g v hz with h1 | h1
    · exact h1.2.2
    · rw [h1.2] at h
      omega

theorem tinyZoomGame_visited :
    tinyZoomGame.tileRange.endTileX = -9223372036854775808 ∧ tinyZoomGame.visited = [] := by
  have hz : 0 < tinyZoomGame.camera.Zoom := by
    norm_num [tinyZoomGame, smallGame, NewCamera]
  have hright : tinyZoomGame.rightWorld / (TileSize : ℚ)
      = ((885443715538058477569 : Int) : ℚ) := by
    norm_num [Game.rightWorld, tinyZoomGame, smallGame, NewCamera, TileSize]
  have hceil : Int.ceil (tinyZoomGame.rightWorld / (TileSize : ℚ))
      = 885443715538058477569 := by
    rw [hright, Int.ceil_intCast]
  have hend0 : tinyZoomGame.edgeToTile (Int.ceil (tinyZoomGame.rightWorld / (TileSize : ℚ)))
      = -9223372036854775808 := by
    rcases edgeToTile_spec tinyZoomGame
      (Int.ceil (tinyZoomGame.rightWorld / (TileSize : ℚ))) (ne_of_gt hz) with h | h
    · rw [hceil] at h
      omega
    · exact h.2
  have hend : tinyZoomGame.tileRange.endTileX = -9223372036854775808 := by
    simp only [Game.tileRange, hend0]
    rfl
  have hstart := tileRange_startTileX_nonneg tinyZoomGame
  have hcols : loopRange tinyZoomGame.tileRange.startTileX tinyZoomGame.tileRange.endTileX
      = [] := by
    unfold loopRange
    have : (tinyZoomGame.tileRange.endTileX - tinyZoomGame.tileRange.startTileX).toNat = 0 := by
      rw [hend]
      omega
    rw [this]
    rfl
  refine ⟨hend, ?_⟩
  unfold Game.visited
  dsimp only
  rw [hcols]
  simp

/-! ## Visibility completeness -/

/-- Counterexample to C4 as stated: `smallGame` with the zoom `2^-70 > 0`.
The viewport covers the whole 2 x 2 world, so tile `(0, 0)` overlaps it, but
`ceil(rightWorld / 32) = 3 * 2^68 + 1` does not fit in an `int`: the
conversion returns `MinInt64`, `endTileX` is negative and the loops of
`Game.Draw` execute at no tile. -/
theorem visibility_complete_counterexample :
    (0 < tinyZoomGame.camera.Zoom ∧
      (0 : Int) < tinyZoomGame.world.width ∧ (0 : Int) < tinyZoomGame.world.height) ∧
    ((((0 : Int) * TileSize : Int) : ℚ) < tinyZoomGame.rightWorld ∧
      ((((0 : Int) + 1) * TileSize : Int) : ℚ) > tinyZoomGame.leftWorld ∧
      (((0 : Int) * TileSize : Int) : ℚ) < tinyZoomGame.bottomWorld ∧
      ((((0 : Int) + 1) * TileSize : Int) : ℚ) > tinyZoomGame.topWorld) ∧
    ¬ ((0 : Int) < tinyZoomGame.tileRange.endTileX) ∧
    tinyZoomGame.visited = [] := by
  have hz : 0 < tinyZoomGame.camera.Zoom := by
    norm_num [tinyZoomGame, smallGame, NewCamera]
  refine ⟨⟨hz, by decide, by decide⟩, ⟨?_, ?_, ?_, ?_⟩, ?_, tinyZoomGame_visited.2⟩
  · norm_num [Game.rightWorld, tinyZoomGame, smallGame, NewCamera, TileSize]
  · norm_num [Game.leftWorld, tinyZoomGame, smallGame, NewCamera, TileSize]
  · norm_num [Game.bottomWorld, tinyZoomGame, smallGame, NewCamera, TileSize]
  · norm_num [Game.topWorld, tinyZoomGame, smallGame, NewCamera, TileSize]
  · rw [tinyZoomGame_visited.1]
    decide

/-- C4 (visibility completeness), amended: for `Zoom > 0` such that
`ceil(rightWorld / S)` and `ceil(bottomWorld / S)` fit in an `int` (are below
`2^63`), every tile `(tx, ty)` of the world (`0 ≤ tx < W`, `0 ≤ ty < H`) whose
world rectangle overlaps the viewport rectangle (`tx*S < right`,
`(tx+1)*S > left`, `ty*S < bottom`, `(ty+1)*S > top`) lies in the range
`Game.Draw` iterates over: `startTileX ≤ tx < endTileX`,
`startTileY ≤ ty < endTileY`, so the loop body is executed at `(tx, ty)`. -/
theorem draw_visibility_complete_of_fit (g : Game) (tx ty : Int)
    (hz : 0 < g.camera.Zoom)
    (hfitX : Int.ceil (g.rightWorld / (TileSize : ℚ)) < 2 ^ 63)
    (hfitY : Int.ceil (g.bottomWorld / (TileSize : ℚ)) < 2 ^ 63)
    (htx0 : 0 ≤ tx) (htx1 : tx < g.world.width)
    (hty0 : 0 ≤ ty) (hty1 : ty < g.world.height)
    (hxr : ((tx * TileSize : Int) : ℚ) < g.rightWorld)
    (hxl : (((tx + 1) * TileSize : Int) : ℚ) > g.leftWorld)
    (hyb : ((ty * TileSize : Int) : ℚ) < g.bottomWorld)
    (hyt : (((ty + 1) * TileSize : Int) : ℚ) > g.topWorld) :
    (g.tileRange.startTileX ≤ tx ∧ tx < g.tileRange.endTileX) ∧
    (g.tileRange.startTileY ≤ ty ∧ ty < g.tileRange.endTileY) ∧
    (tx, ty) ∈ g.visited := by
  have hS : ((TileSize : Int) : ℚ) = 32 := by norm_num [TileSize]
  have hz0 : g.camera.Zoom ≠ 0 := ne_of_gt hz
  have hpow : (2 : Int) ^ 63 = 9223372036854775808 := by norm_num
  rw [hpow] at hfitX hfitY
  have hfx : Int.floor (g.leftWorld / (TileSize : ℚ)) ≤ tx := by
    have h1 : g.leftWorld / (TileSize : ℚ) < ((tx + 1 : Int) : ℚ) := by
      rw [hS, div_lt_iff₀ (by norm_num)]
      have := hxl
      push_cast [TileSize] at this ⊢
      linarith
    have := Int.floor_lt.mpr h1
    omega
  have hcx : tx < Int.ceil (g.rightWorld / (TileSize : ℚ)) := by
    apply Int.lt_ceil.mpr
    rw [hS, lt_div_iff₀ (by norm_num)]
    have := hxr
    push_cast [TileSize] at this ⊢
    linarith
  have hfy : Int.floor (g.topWorld / (TileSize : ℚ)) ≤ ty := by
    have h1 : g.topWorld / (TileSize : ℚ) < ((ty + 1 : Int) : ℚ) := by
      rw [hS, div_lt_iff₀ (by norm_num)]
      have := hyt
      push_cast [TileSize] at this ⊢
      linarith
    have := Int.floor_lt.mpr h1
    omega
  have hcy : ty < Int.ceil (g.bottomWorld / (TileSize : ℚ)) := by
    apply Int.lt_ceil.mpr
    rw [hS, lt_div_iff₀ (by norm_num)]
    have := hyb
    push_cast [TileSize] at this ⊢
    linarith
  have e1 := edgeToTile_spec g (Int.floor (g.leftWorld / (TileSize : ℚ))) hz0
  have e2 := edgeToTile_spec g (Int.ceil (g.rightWorld / (TileSize : ℚ))) hz0
  have e3 := edgeToTile_spec g (Int.floor (g.topWorld / (TileSize : ℚ))) hz0
  have e4 := edgeToTile_spec g (Int.ceil (g.bottomWorld / (TileSize : ℚ))) hz0
  have hx : g.tileRange.startTileX ≤ tx ∧ tx < g.tileRange.endTileX := by
    simp only [Game.tileRange]
    constructor <;> split_ifs <;> omega
  have hy : g.tileRange.startTileY ≤ ty ∧ ty < g.tileRange.endTileY := by
    simp only [Game.tileRange]
    constructor <;> split_ifs <;> omega
  exact ⟨hx, hy, (mem_visited g (tx, ty)).mpr ⟨hx, hy⟩⟩

/-- Witness of the amended C4: in `smallGame` the viewport is
`[8, 56] x [12, 52]`, the ceilings are 2, and tile `(1, 0)`, whose rectangle
is `[32, 64] x [0, 32]`, overlaps it. -/
theorem draw_visibility_complete_of_fit_witness :
    (0 < smallGame.camera.Zoom ∧
      Int.ceil (smallGame.rightWorld / (TileSize : ℚ)) < 2 ^ 63 ∧
      Int.ceil (smallGame.bottomWorld / (TileSize : ℚ)) < 2 ^ 63) ∧
    ((((1 : Int) * TileSize : Int) : ℚ) < smallGame.rightWorld ∧
      ((((1 : Int) + 1) * TileSize : Int) : ℚ) > smallGame.leftWorld ∧
      (((0 : Int) * TileSize : Int) : ℚ) < smallGame.bottomWorld ∧
      ((((0 : Int) + 1) * TileSize : Int) : ℚ) > smallGame.topWorld) ∧
    ((smallGame.tileRange.startTileX ≤ 1 ∧ 1 < smallGame.tileRange.endTileX) ∧
      (smallGame.tileRange.startTileY ≤ 0 ∧ 0 < smallGame.tileRange.endTileY) ∧
      ((1 : Int), (0 : Int)) ∈ smallGame.visited) := by
  have hz : 0 < smallGame.camera.Zoom := by norm_num [smallGame, NewCamera]
  have hfitX : Int.ceil (smallGame.rightWorld / (TileSize : ℚ)) < 2 ^ 63 := by
    rw [Int.ceil_lt_iff]
    norm_num [Game.rightWorld, smallGame, NewCamera, TileSize]
  have hfitY : Int.ceil (smallGame.bottomWorld / (TileSize : ℚ)) < 2 ^ 63 := by
    rw [Int.ceil_lt_iff]
    norm_num [Game.bottomWorld, smallGame, NewCamera, TileSize]
  have hw : (1 : Int) < smallGame.world.width := by decide
  have hh : (0 : Int) < smallGame.world.height := by decide
  have hxr : (((1 : Int) * TileSize : Int) : ℚ) < smallGame.rightWorld := by
    norm_num [Game.rightWorld, smallGame, NewCamera, TileSize]
  have hxl : ((((1 : Int) + 1) * TileSize : Int) : ℚ) > smallGame.leftWorld := by
    norm_num [Game.leftWorld, smallGame, NewCamera, TileSize]
  have hyb : (((0 : Int) * TileSize : Int) : ℚ) < smallGame.bottomWorld := by
    norm_num [Game.bottomWorld, smallGame, NewCamera, TileSize]
  have hyt : ((((0 : Int) + 1) * TileSize : Int) : ℚ) > smallGame.topWorld := by
    norm_num [Game.topWorld, smallGame, NewCamera, TileSize]
  exact ⟨⟨hz, hfitX, hfitY⟩, ⟨hxr, hxl, hyb, hyt⟩,
    draw_visibility_complete_of_fit smallGame 1 0 hz hfitX hfitY (by decide) hw (by decide) hh
      hxr hxl hyb hyt⟩

/-! ## Safe tile indexing -/

theorem visited_in_world (g : Game) (p : Int × Int) (hp : p ∈ g.visited) :
    (0 ≤ p.1 ∧ p.1 < g.world.width) ∧ (0 ≤ p.2 ∧ p.2 < g.world.height) := by
  obtain ⟨⟨hx0, hx1⟩, ⟨hy0, hy1⟩⟩ := (mem_visited g p).mp hp
  have h1 := tileRange_startTileX_nonneg g
  have h2 := tileRange_startTileY_nonneg g
  have h3 := tileRange_endTileX_le g
  have h4 := tileRange_endTileY_le g
  omega

theorem NewWorld_tileAt (width height : Int) (rnd : Nat → Int) (w : World)
    (hw : NewWorld width height rnd = some w) (x y : Int)
    (hx : 0 ≤ x ∧ x < w.width) (hy : 0 ≤ y ∧ y < w.height) :
    w.tileAt x y = some { textureIndex := rnd (y.toNat * width.toNat + x.toNat) } := by
  unfold NewWorld at hw
  split_ifs at hw with h1 h2
  simp only [Option.some.injEq] at hw
  subst hw
  simp only at hx hy
  have hyn : y.toNat < height.toNat := by omega
  have hxn : x.toNat < width.toNat := by omega
  have hneg : ¬ (y < 0 ∨ x < 0) := by omega
  simp [World.tileAt, hneg, List.getElem?_map, List.getElem?_range, hyn, hxn]

theorem drawAll_isSome (g : Game) (l : List (Int × Int))
    (h : ∀ p ∈ l, (g.world.tileAt p.1 p.2).isSome = true) :
    (g.drawAll l).isSome = true := by
  induction l with
  | nil => rfl
  | cons p rest ih =>
    have hp := h p (List.mem_cons_self p rest)
    have hrest := ih (fun q hq => h q (List.mem_cons_of_mem p hq))
    obtain ⟨t, ht⟩ := Option.isSome_iff_exists.mp hp
    obtain ⟨calls, hcalls⟩ := Option.isSome_iff_exists.mp hrest
    simp [Game.drawAll, Game.drawTile, ht, hcalls]

theorem drawAll_length (g : Game) (l : List (Int × Int)) (calls : List DrawCall)
    (h : g.drawAll l = some calls) : calls.length = l.length := by
  induction l generalizing calls with
  | nil =>
    simp only [Game.drawAll, Option.some.injEq] at h
    subst h
    rfl
  | cons p rest ih =>
    unfold Game.drawAll at h
    split at h
    · exact absurd h (by simp)
    · split at h
      · exact absurd h (by simp)
      · rename_i cs hcs
        simp only [Option.some.injEq] at h
        subst h
        simp [ih cs hcs]

/-- C5 (tile indexing is safe): for every camera state and viewport size,
every `(x, y)` at which the loops of `Game.Draw` execute their body satisfies
`0 ≤ x < W` and `0 ≤ y < H`; hence, on a world built by `NewWorld`, every
lookup `world.tiles[y][x]` made by `Game.Draw` succeeds and the call
completes. -/
theorem draw_index_safe (g : Game) :
    (∀ p ∈ g.visited,
      (0 ≤ p.1 ∧ p.1 < g.world.width) ∧ (0 ≤ p.2 ∧ p.2 < g.world.height)) ∧
    (∀ (width height : Int) (rnd : Nat → Int),
      NewWorld width height rnd = some g.world →
        (∀ p ∈ g.visited, (g.world.tileAt p.1 p.2).isSome = true) ∧
        g.Draw.isSome = true) := by
  refine ⟨fun p hp => visited_in_world g p hp, ?_⟩
  intro width height rnd hw
  have hall : ∀ p ∈ g.visited, (g.world.tileAt p.1 p.2).isSome = true := by
    intro p hp
    obtain ⟨hx, hy⟩ := visited_in_world g p hp
    rw [NewWorld_tileAt width height rnd g.world hw p.1 p.2 hx hy]
    rfl
  exact ⟨hall, drawAll_isSome g g.visited hall⟩

/-- Witness of C5: `smallGame`, whose world is what `NewWorld 2 2` builds
from the draws 0, 1, 2, 3. -/
theorem draw_index_safe_witness :
    NewWorld 2 2 (fun k => (k : Int)) = some smallGame.world ∧
    (∀ p ∈ smallGame.visited, (smallGame.world.tileAt p.1 p.2).isSome = true) ∧
    smallGame.Draw.isSome = true :=
  ⟨by decide, (draw_index_safe smallGame).2 2 2 (fun k => (k : Int)) (by decide)⟩

/-! ## Visibility minimality -/

/-- The number of integers in `[⌊a⌋, ⌈b⌉)` exceeds `⌈b - a⌉` by at most one. -/
theorem ceil_sub_floor_le (a b d : ℚ) (hd : b - a = d) :
    Int.ceil b - Int.floor a ≤ Int.ceil d + 1 := by
  have h1 : ((Int.ceil b : Int) : ℚ) < b + 1 := Int.ceil_lt_add_one b
  have h2 : a - 1 < ((Int.floor a : Int) : ℚ) := Int.sub_one_lt_floor a
  have h3 : d ≤ ((Int.ceil d : Int) : ℚ) := Int.le_ceil d
  have h4 : ((Int.ceil b - Int.floor a : Int) : ℚ) < ((Int.ceil d + 2 : Int) : ℚ) := by
    push_cast
    linarith
  have h5 : Int.ceil b - Int.floor a < Int.ceil d + 2 := by exact_mod_cast h4
  omega

theorem viewport_width (g : Game) (hz : 0 < g.camera.Zoom) :
    g.rightWorld / (TileSize : ℚ) - g.leftWorld / (TileSize : ℚ) =
      (g.screenWidth : ℚ) / (g.camera.Zoom * (TileSize : ℚ)) := by
  have hS : ((TileSize : Int) : ℚ) = 32 := by norm_num [TileSize]
  have hz0 : g.camera.Zoom ≠ 0 := ne_of_gt hz
  rw [hS]
  unfold Game.rightWorld Game.leftWorld
  field_simp
  ring

theorem viewport_height (g : Game) (hz : 0 < g.camera.Zoom) :
    g.bottomWorld / (TileSize : ℚ) - g.topWorld / (TileSize : ℚ) =
      (g.screenHeight : ℚ) / (g.camera.Zoom * (TileSize : ℚ)) := by
  have hS : ((TileSize : Int) : ℚ) = 32 := by norm_num [TileSize]
  have hz0 : g.camera.Zoom ≠ 0 := ne_of_gt hz
  rw [hS]
  unfold Game.bottomWorld Game.topWorld
  field_simp
  ring

theorem tiles_per_axis_nonneg (z : ℚ) (n : Int) (hz : 0 < z) (hn : 0 ≤ n) :
    0 ≤ Int.ceil ((n : ℚ) / (z * (TileSize : ℚ))) := by
  have hS : ((TileSize : Int) : ℚ) = 32 := by norm_num [TileSize]
  apply Int.ceil_nonneg
  have hn0 : (0 : ℚ) ≤ (n : ℚ) := by exact_mod_cast hn
  rw [hS]
  positivity

theorem floor_le_ceil_of_sub_nonneg (a b d : ℚ) (hd : b - a = d) (h0 : 0 ≤ d) :
    Int.floor a ≤ Int.ceil b := by
  have h1 : ((Int.floor a : Int) : ℚ) ≤ a := Int.floor_le a
  have h2 : b ≤ ((Int.ceil b : Int) : ℚ) := Int.le_ceil b
  have h3 : ((Int.floor a : Int) : ℚ) ≤ ((Int.ceil b : Int) : ℚ) := by linarith
  exact_mod_cast h3

theorem tiles_per_axis_arg_nonneg (z : ℚ) (n : Int) (hz : 0 < z) (hn : 0 ≤ n) :
    (0 : ℚ) ≤ (n : ℚ) / (z * (TileSize : ℚ)) := by
  have hS : ((TileSize : Int) : ℚ) = 32 := by norm_num [TileSize]
  have hn0 : (0 : ℚ) ≤ (n : ℚ) := by exact_mod_cast hn
  rw [hS]
  positivity

theorem columns_le (g : Game) (hz : 0 < g.camera.Zoom) (hw : 0 ≤ g.screenWidth) :
    ((g.tileRange.endTileX - g.tileRange.startTileX).toNat : Int) ≤
      Int.ceil ((g.screenWidth : ℚ) / (g.camera.Zoom * (TileSize : ℚ))) + 2 := by
  have h1 := ceil_sub_floor_le _ _ _ (viewport_width g hz)
  have h2 := tiles_per_axis_nonneg g.camera.Zoom g.screenWidth hz hw
  have h3 := floor_le_ceil_of_sub_nonneg _ _ _ (viewport_width g hz)
    (tiles_per_axis_arg_nonneg g.camera.Zoom g.screenWidth hz hw)
  have e1 := edgeToTile_spec g (Int.floor (g.leftWorld / (TileSize : ℚ))) (ne_of_gt hz)
  have e2 := edgeToTile_spec g (Int.ceil (g.rightWorld / (TileSize : ℚ))) (ne_of_gt hz)
  simp only [Game.tileRange]
  split_ifs <;> omega

theorem rows_le (g : Game) (hz : 0 < g.camera.Zoom) (hh : 0 ≤ g.screenHeight) :
    ((g.tileRange.endTileY - g.tileRange.startTileY).toNat : Int) ≤
      Int.ceil ((g.screenHeight : ℚ) / (g.camera.Zoom * (TileSize : ℚ))) + 2 := by
  have h1 := ceil_sub_floor_le _ _ _ (viewport_height g hz)
  have h2 := tiles_per_axis_nonneg g.camera.Zoom g.screenHeight hz hh
  have h3 := floor_le_ceil_of_sub_nonneg _ _ _ (viewport_height g hz)
    (tiles_per_axis_arg_nonneg g.camera.Zoom g.screenHeight hz hh)
  have e1 := edgeToTile_spec g (Int.floor (g.topWorld / (TileSize : ℚ))) (ne_of_gt hz)
  have e2 := edgeToTile_spec g (Int.ceil (g.bottomWorld / (TileSize : ℚ))) (ne_of_gt hz)
  simp only [Game.tileRange]
  split_ifs <;> omega

/-- C6 (visibility minimality): for `Zoom > 0` and a viewport with
`Sw, Sh ≥ 0`, the number of `(x, y)` pairs the loops of `Game.Draw` iterate
over, and so the number of draw calls of one frame, is at most
`(⌈Sw / (Zoom * S)⌉ + 2) * (⌈Sh / (Zoom * S)⌉ + 2)`, for every camera position
and world size. -/
theorem draw_visibility_minimal (g : Game) (hz : 0 < g.camera.Zoom)
    (hw : 0 ≤ g.screenWidth) (hh : 0 ≤ g.screenHeight) :
    (g.visited.length : Int) ≤
      (Int.ceil ((g.screenWidth : ℚ) / (g.camera.Zoom * (TileSize : ℚ))) + 2) *
        (Int.ceil ((g.screenHeight : ℚ) / (g.camera.Zoom * (TileSize : ℚ))) + 2) ∧
    (∀ calls, g.Draw = some calls →
      (calls.length : Int) ≤
        (Int.ceil ((g.screenWidth : ℚ) / (g.camera.Zoom * (TileSize : ℚ))) + 2) *
          (Int.ceil ((g.screenHeight : ℚ) / (g.camera.Zoom * (TileSize : ℚ))) + 2)) := by
  have hc := columns_le g hz hw
  have hr := rows_le g hz hh
  have hc0 : (0 : Int) ≤ ((g.tileRange.endTileX - g.tileRange.startTileX).toNat : Int) :=
    Int.natCast_nonneg _
  have hr0 : (0 : Int) ≤ ((g.tileRange.endTileY - g.tileRange.startTileY).toNat : Int) :=
    Int.natCast_nonneg _
  have hlen : (g.visited.length : Int) ≤
      (Int.ceil ((g.screenWidth : ℚ) / (g.camera.Zoom * (TileSize : ℚ))) + 2) *
        (Int.ceil ((g.screenHeight : ℚ) / (g.camera.Zoom * (TileSize : ℚ))) + 2) := by
    rw [length_visited, Nat.cast_mul, mul_comm]
    exact mul_le_mul hc hr hr0 (le_trans hc0 hc)
  refine ⟨hlen, fun calls hcalls => ?_⟩
  rw [drawAll_length g g.visited calls hcalls]
  exact hlen

/-- Witness of C6: `smallGame` (viewport 48 x 40, zoom 1). -/
theorem draw_visibility_minimal_witness :
    (0 < smallGame.camera.Zoom ∧ 0 ≤ smallGame.screenWidth ∧ 0 ≤ smallGame.screenHeight) ∧
    (smallGame.visited.length : Int) ≤
      (Int.ceil ((smallGame.screenWidth : ℚ) / (smallGame.camera.Zoom * (TileSize : ℚ))) + 2) *
        (Int.ceil ((smallGame.screenHeight : ℚ) /
          (smallGame.camera.Zoom * (TileSize : ℚ))) + 2) := by
  have hz : 0 < smallGame.camera.Zoom := by norm_num [smallGame, NewCamera]
  have hw : 0 ≤ smallGame.screenWidth := by decide
  have hh : 0 ≤ smallGame.screenHeight := by decide
  exact ⟨⟨hz, hw, hh⟩, (draw_visibility_minimal smallGame hz hw hh).1⟩

/-! ## Anchor fidelity -/

theorem clampStep_of_in_bounds (c : Camera) (worldW worldH : Int)
    (hx : 0 ≤ c.X ∧ c.X ≤ ((worldW * TileSize : Int) : ℚ))
    (hy : 0 ≤ c.Y ∧ c.Y ≤ ((worldH * TileSize : Int) : ℚ)) :
    c.clampStep worldW worldH = c := by
  unfold Camera.clampStep
  dsimp only
  rw [if_neg (not_lt.mpr hx.1), if_neg (not_lt.mpr hx.2), if_neg (not_lt.mpr hy.1),
    if_neg (not_lt.mpr hy.2)]

theorem zoomStep_X (c : Camera) (config : Config) : (c.zoomStep config).X = c.X := rfl

theorem zoomStep_Y (c : Camera) (config : Config) : (c.zoomStep config).Y = c.Y := rfl

theorem zoomStep_VelX (c : Camera) (config : Config) : (c.zoomStep config).VelX = c.VelX := rfl

theorem zoomStep_VelY (c : Camera) (config : Config) : (c.zoomStep config).VelY = c.VelY := rfl

/-- Counterexample to C7 as stated: a drag of +200 px from a camera anchored
at `X = 100` (zoom 1, constant) asks for `X = -100`; the bounds check puts
the camera at `X = 0` instead. -/
theorem anchor_fidelity_counterexample :
    ({ dragInput with mouseX := 600 } : Input).isDragging = true ∧
    (coastingCamera.Update DefaultConfig { dragInput with mouseX := 600 } 32 32).1.Zoom =
      coastingCamera.Zoom ∧
    (coastingCamera.Update DefaultConfig { dragInput with mouseX := 600 } 32 32).1.X ≠
      (coastingCamera.Update DefaultConfig { dragInput with mouseX := 600 } 32 32).2.dragStartCameraX
        - (((600 : Int) - dragInput.dragStartMouseX : Int) : ℚ) / coastingCamera.Zoom := by
  norm_num [Camera.Update, Camera.beforeClamp, Camera.panStep, Camera.dragStep,
    Camera.zoomStep, Camera.clampStep, coastingCamera, dragInput, NewInput,
    DefaultConfig, TileSize]

/-- C7 (anchor fidelity), amended: on a dragged frame in which the pointer is
away from the press position and the anchored position
`(acx - (mx - amx)/Z, acy - (my - amy)/Z)` lies inside the world rectangle
`[0, W*S] x [0, H*S]`, the camera position after `Camera.Update` is that
anchored position, `Z` being the zoom the frame starts with (the zoom of the
whole drag when it is constant); the camera anchor is left as it was. -/
theorem update_anchor_fidelity_in_world (c : Camera) (config : Config) (input : Input)
    (worldW worldH : Int)
    (hdrag : input.isDragging = true)
    (hmoved : ¬ (input.dragStartMouseX = input.mouseX ∧
      input.dragStartMouseY = input.mouseY))
    (hx : 0 ≤ input.dragStartCameraX
            - ((input.mouseX - input.dragStartMouseX : Int) : ℚ) / c.Zoom ∧
          input.dragStartCameraX
            - ((input.mouseX - input.dragStartMouseX : Int) : ℚ) / c.Zoom
            ≤ ((worldW * TileSize : Int) : ℚ))
    (hy : 0 ≤ input.dragStartCameraY
            - ((input.mouseY - input.dragStartMouseY : Int) : ℚ) / c.Zoom ∧
          input.dragStartCameraY
            - ((input.mouseY - input.dragStartMouseY : Int) : ℚ) / c.Zoom
            ≤ ((worldH * TileSize : Int) : ℚ)) :
    (c.Update config input worldW worldH).1.X =
      input.dragStartCameraX - ((input.mouseX - input.dragStartMouseX : Int) : ℚ) / c.Zoom ∧
    (c.Update config input worldW worldH).1.Y =
      input.dragStartCameraY - ((input.mouseY - input.dragStartMouseY : Int) : ℚ) / c.Zoom ∧
    (c.Update config input worldW worldH).2.dragStartCameraX = input.dragStartCameraX ∧
    (c.Update config input worldW worldH).2.dragStartCameraY = input.dragStartCameraY := by
  have hX : (c.beforeClamp config input).1.X =
      input.dragStartCameraX - ((input.mouseX - input.dragStartMouseX : Int) : ℚ) / c.Zoom := by
    simp only [Camera.beforeClamp, Camera.panStep, Camera.dragStep, hdrag, if_true,
      if_neg hmoved, zoomStep_X]
    ring
  have hY : (c.beforeClamp config input).1.Y =
      input.dragStartCameraY - ((input.mouseY - input.dragStartMouseY : Int) : ℚ) / c.Zoom := by
    simp only [Camera.beforeClamp, Camera.panStep, Camera.dragStep, hdrag, if_true,
      if_neg hmoved, zoomStep_Y]
    ring
  have hI : (c.beforeClamp config input).2.dragStartCameraX = input.dragStartCameraX ∧
      (c.beforeClamp config input).2.dragStartCameraY = input.dragStartCameraY := by
    simp only [Camera.beforeClamp, Camera.panStep, Camera.dragStep, hdrag, if_true,
      if_neg hmoved, and_self]
  have hfix := clampStep_of_in_bounds (c.beforeClamp config input).1 worldW worldH
    (by rw [hX]; exact hx) (by rw [hY]; exact hy)
  simp only [Camera.Update, hfix]
  exact ⟨hX, hY, hI.1, hI.2⟩

/-- Witness of the amended C7: a drag of +50 px from a camera anchored at
(100, 50) in a 32 x 32 world puts the camera at (50, 50). -/
theorem update_anchor_fidelity_in_world_witness :
    (coastingCamera.Update DefaultConfig { dragInput with mouseX := 450 } 32 32).1.X = 50 ∧
    (coastingCamera.Update DefaultConfig { dragInput with mouseX := 450 } 32 32).1.Y = 50 := by
  have h := update_anchor_fidelity_in_world coastingCamera DefaultConfig
    { dragInput with mouseX := 450 } 32 32 rfl
    (by simp [dragInput])
    (by norm_num [dragInput, coastingCamera, NewInput, TileSize])
    (by norm_num [dragInput, coastingCamera, NewInput, TileSize])
  refine ⟨h.1.trans ?_, h.2.1.trans ?_⟩ <;>
    norm_num [dragInput, coastingCamera, NewInput]

/-! ## The drag anchor -/

/-- The state `mainGame` is what `NewGame(32, 32, nil)` returns (all random
draws taken as 0). -/
theorem mainGame_eq_NewGame : NewGame 32 32 none (fun _ => 0) = some mainGame := rfl

/-- C8, the code at the failing input: the button goes down at (400, 300)
with the camera at (512, 512), the pointer moves to (390, 300) and then back
to (400, 300), the button held throughout.  After the second frame the
camera anchor is still 512 and the camera is at 522; the third frame, in the
middle of the drag, overwrites the anchor with 522 and the camera stays at
522 instead of returning to 512. -/
theorem drag_anchor_rerecorded :
    (mainGame.run [pointerFrame 400 300 true]).input.dragStartCameraX = 512 ∧
    (mainGame.run [pointerFrame 400 300 true,
        pointerFrame 390 300 false]).input.dragStartCameraX = 512 ∧
    (mainGame.run [pointerFrame 400 300 true,
        pointerFrame 390 300 false]).camera.X = 522 ∧
    (mainGame.run [pointerFrame 400 300 true, pointerFrame 390 300 false,
        pointerFrame 400 300 false]).input.isDragging = true ∧
    (mainGame.run [pointerFrame 400 300 true, pointerFrame 390 300 false,
        pointerFrame 400 300 false]).input.dragStartCameraX = 522 ∧
    (mainGame.run [pointerFrame 400 300 true, pointerFrame 390 300 false,
        pointerFrame 400 300 false]).camera.X = 522 := by
  norm_num [Game.run, Game.Update, Input.Update, Input.HandleZoom, Camera.Update,
    Camera.beforeClamp, Camera.panStep, Camera.dragStep, Camera.zoomStep,
    Camera.clampStep, mainGame, mainWorld, pointerFrame, NewCamera, NewInput,
    DefaultConfig, TileSize]

/-! ## Momentum seed -/

/-- Counterexample to C9 as stated, two cases, each a last dragged frame
followed by the first frame after the release, no key held.  First case: the
pointer is held still away from the press position, so the last displacement
is `(0, 0)`; the camera had velocity 5 before the drag and comes out with
velocity 3.4, not 0.  Second case: the last displacement is `(-10, 0)`, the
velocity -20 the camera had before the drag carries it across the west edge
on the release frame, and the bounds check zeroes the velocity: 0, not -80. -/
theorem momentum_seed_counterexample :
    ((heldCamera.Update DefaultConfig heldInput 32 32).1.Update DefaultConfig
        (released (heldCamera.Update DefaultConfig heldInput 32 32).2) 32 32).1.VelX ≠
      8 * ((heldInput.dragStartCameraX
          - ((heldInput.mouseX - heldInput.dragStartMouseX : Int) : ℚ) / heldCamera.Zoom)
        - heldCamera.X) ∧
    ((nearEdgeCamera.Update DefaultConfig nearEdgeInput 32 32).1.Update DefaultConfig
        (released (nearEdgeCamera.Update DefaultConfig nearEdgeInput 32 32).2) 32 32).1.VelX ≠
      8 * ((nearEdgeInput.dragStartCameraX
          - ((nearEdgeInput.mouseX - nearEdgeInput.dragStartMouseX : Int) : ℚ)
              / nearEdgeCamera.Zoom)
        - nearEdgeCamera.X) := by
  constructor
  · norm_num [Camera.Update, Camera.beforeClamp, Camera.panStep, Camera.dragStep,
      Camera.zoomStep, Camera.clampStep, heldCamera, heldInput, released, NewInput,
      DefaultConfig, TileSize]
  · norm_num [Camera.Update, Camera.beforeClamp, Camera.panStep, Camera.dragStep,
      Camera.zoomStep, Camera.clampStep, nearEdgeCamera, nearEdgeInput, released, NewInput,
      DefaultConfig, TileSize]

theorem update_dragVel_of_moved (c : Camera) (config : Config) (input : Input)
    (worldW worldH : Int) (hdrag : input.isDragging = true)
    (hmoved : ¬ (input.dragStartMouseX = input.mouseX ∧
      input.dragStartMouseY = input.mouseY)) :
    (c.Update config input worldW worldH).2.dragVelX =
      (input.dragStartCameraX
          - ((input.mouseX - input.dragStartMouseX : Int) : ℚ) / c.Zoom) - c.X ∧
    (c.Update config input worldW worldH).2.dragVelY =
      (input.dragStartCameraY
          - ((input.mouseY - input.dragStartMouseY : Int) : ℚ) / c.Zoom) - c.Y := by
  simp only [Camera.Update, Camera.beforeClamp, Camera.panStep, Camera.dragStep, hdrag,
    if_true, if_neg hmoved]
  constructor <;> ring

theorem update_vel_of_release (c : Camera) (config : Config) (input : Input)
    (worldW worldH : Int) (hrel : input.isDragging = false)
    (hne : input.dragVelX ≠ 0 ∨ input.dragVelY ≠ 0)
    (hx : 0 ≤ (c.beforeClamp config input).1.X ∧
      (c.beforeClamp config input).1.X ≤ ((worldW * TileSize : Int) : ℚ))
    (hy : 0 ≤ (c.beforeClamp config input).1.Y ∧
      (c.beforeClamp config input).1.Y ≤ ((worldH * TileSize : Int) : ℚ)) :
    (c.Update config input worldW worldH).1.VelX = 8 * input.dragVelX ∧
    (c.Update config input worldW worldH).1.VelY = 8 * input.dragVelY := by
  have hfix := clampStep_of_in_bounds (c.beforeClamp config input).1 worldW worldH hx hy
  simp only [Camera.Update, hfix]
  simp only [Camera.beforeClamp, Camera.dragStep, hrel, Bool.false_eq_true, if_false,
    if_pos hne, zoomStep_VelX, zoomStep_VelY]
  constructor <;> norm_num <;> ring

/-- C9 (momentum seed), amended: take a dragged frame with the pointer away
from the press position, whose displacement `(newX - X, newY - Y)` is not
`(0, 0)`, followed by a first frame with `isDragging == false` on which no
bounds check fires (the position reaching the checks lies in
`[0, W*S] x [0, H*S]`).  Then the velocity after that second frame is
`8 * (newX - X, newY - Y)`, for every velocity the camera had before, every
key state and every pointer position of the second frame. -/
theorem release_momentum_seed (c : Camera) (config : Config) (dragged after : Input)
    (worldW worldH : Int)
    (hdrag : dragged.isDragging = true)
    (hmoved : ¬ (dragged.dragStartMouseX = dragged.mouseX ∧
      dragged.dragStartMouseY = dragged.mouseY))
    (hrel : after.isDragging = false)
    (hvx : after.dragVelX = (c.Update config dragged worldW worldH).2.dragVelX)
    (hvy : after.dragVelY = (c.Update config dragged worldW worldH).2.dragVelY)
    (hne : (dragged.dragStartCameraX
              - ((dragged.mouseX - dragged.dragStartMouseX : Int) : ℚ) / c.Zoom) - c.X ≠ 0 ∨
           (dragged.dragStartCameraY
              - ((dragged.mouseY - dragged.dragStartMouseY : Int) : ℚ) / c.Zoom) - c.Y ≠ 0)
    (hx : 0 ≤ ((c.Update config dragged worldW worldH).1.beforeClamp config after).1.X ∧
      ((c.Update config dragged worldW worldH).1.beforeClamp config after).1.X
        ≤ ((worldW * TileSize : Int) : ℚ))
    (hy : 0 ≤ ((c.Update config dragged worldW worldH).1.beforeClamp config after).1.Y ∧
      ((c.Update config dragged worldW worldH).1.beforeClamp config after).1.Y
        ≤ ((worldH * TileSize : Int) : ℚ)) :
    ((c.Update config dragged worldW worldH).1.Update config after worldW worldH).1.VelX =
      8 * ((dragged.dragStartCameraX
          - ((dragged.mouseX - dragged.dragStartMouseX : Int) : ℚ) / c.Zoom) - c.X) ∧
    ((c.Update config dragged worldW worldH).1.Update config after worldW worldH).1.VelY =
      8 * ((dragged.dragStartCameraY
          - ((dragged.mouseY - dragged.dragStartMouseY : Int) : ℚ) / c.Zoom) - c.Y) := by
  obtain ⟨hdx, hdy⟩ := update_dragVel_of_moved c config dragged worldW worldH hdrag hmoved
  have hne2 : after.dragVelX ≠ 0 ∨ after.dragVelY ≠ 0 := by
    rw [hvx, hvy, hdx, hdy]
    exact hne
  obtain ⟨h1, h2⟩ := update_vel_of_release (c.Update config dragged worldW worldH).1 config
    after worldW worldH hrel hne2 hx hy
  rw [h1, h2, hvx, hvy, hdx, hdy]
  exact ⟨rfl, rfl⟩

/-- Witness of the amended C9: the last frame of a drag moves the camera from
602 to 612; the frame after the release gives it the velocity (80, 0). -/
theorem release_momentum_seed_witness :
    ((lastDragCamera.Update DefaultConfig lastDragInput 32 32).1.Update DefaultConfig
        (released (lastDragCamera.Update DefaultConfig lastDragInput 32 32).2) 32 32).1.VelX
      = 80 ∧
    ((lastDragCamera.Update DefaultConfig lastDragInput 32 32).1.Update DefaultConfig
        (released (lastDragCamera.Update DefaultConfig lastDragInput 32 32).2) 32 32).1.VelY
      = 0 := by
  have h := release_momentum_seed lastDragCamera DefaultConfig lastDragInput
    (released (lastDragCamera.Update DefaultConfig lastDragInput 32 32).2) 32 32 rfl
    (by simp [lastDragInput]) rfl rfl rfl
    (by norm_num [lastDragInput, lastDragCamera, NewInput])
    (by norm_num [Camera.Update, Camera.beforeClamp, Camera.panStep, Camera.dragStep,
      Camera.zoomStep, Camera.clampStep, lastDragCamera, lastDragInput, released, NewInput,
      DefaultConfig, TileSize])
    (by norm_num [Camera.Update, Camera.beforeClamp, Camera.panStep, Camera.dragStep,
      Camera.zoomStep, Camera.clampStep, lastDragCamera, lastDragInput, released, NewInput,
      DefaultConfig, TileSize])
  refine ⟨h.1.trans ?_, h.2.trans ?_⟩ <;>
    norm_num [lastDragInput, lastDragCamera, NewInput]

/-! ## Keyboard sampling -/

/-- Counterexample to C11 as stated: with `A` and `D` both held the later
assignment wins and `wasdVelX` is `+1`, not `-1`. -/
theorem keyboard_sampling_counterexample :
    keysADFrame.keyA = true ∧ (NewInput.Update keysADFrame).wasdVelX ≠ -1 := by
  norm_num [Input.Update, keysADFrame, NewInput]

/-- C11 (keyboard sampling), amended: for every combination of pressed states
of `A`, `D`, `W`, `S` and every previous input, `Input.Update` sets
`wasdVelX = +1` if `D` is pressed, else `-1` if `A` is pressed, else `0`, and
`wasdVelY = +1` if `S` is pressed, else `-1` if `W` is pressed, else `0`. -/
theorem input_update_keyboard (i : Input) (h : Host) :
    (i.Update h).wasdVelX = (if h.keyD then 1 else if h.keyA then -1 else 0) ∧
    (i.Update h).wasdVelY = (if h.keyS then 1 else if h.keyW then -1 else 0) := by
  unfold Input.Update
  cases h.keyA <;> cases h.keyD <;> cases h.keyW <;> cases h.keyS <;> simp

/-! ## World construction -/

/-- Counterexample to C14 as stated: `NewWorld(0, 0)` and `NewGame(0, 0, nil)`
return a world and a game. -/
theorem invalid_world_size_counterexample :
    ((0 : Int) ≤ 0 ∨ (0 : Int) ≤ 0) ∧
    NewWorld 0 0 (fun _ => 0) = some { width := 0, height := 0, tiles := [] } ∧
    (NewGame 0 0 none (fun _ => 0)).isSome = true := by
  refine ⟨Or.inl (le_refl 0), rfl, rfl⟩

/-- C14 (invalid world size), amended: world construction fails exactly when
`H < 0`, or `H > 0` and `W < 0` (the panics of `make` on a negative length);
`NewGame` fails exactly when `NewWorld` does.  For every other size, among
them `W = 0` with `H ≥ 0` and `H = 0` with any `W`, `NewWorld` returns a world
with the width and height it was given. -/
theorem newWorld_fails_iff (width height : Int) (c : Option Config) (rnd : Nat → Int) :
    (NewWorld width height rnd = none ↔ (height < 0 ∨ (0 < height ∧ width < 0))) ∧
    (NewGame width height c rnd = none ↔ (height < 0 ∨ (0 < height ∧ width < 0))) ∧
    (∀ w, NewWorld width height rnd = some w → w.width = width ∧ w.height = height) := by
  have h1 : NewWorld width height rnd = none ↔ (height < 0 ∨ (0 < height ∧ width < 0)) := by
    unfold NewWorld
    split_ifs with ha hb
    · simp [ha]
    · simp [hb]
    · simp only [reduceCtorEq, false_iff]
      tauto
  refine ⟨h1, ?_, ?_⟩
  · rw [← h1]
    unfold NewGame
    cases hw : NewWorld width height rnd <;> simp
  · intro w hw
    unfold NewWorld at hw
    split_ifs at hw
    simp only [Option.some.injEq] at hw
    subst hw
    exact ⟨rfl, rfl⟩

/-! ## Terminal pan velocity -/

theorem update_VelX_of_keys (c : Camera) (config : Config) (input : Input)
    (worldW worldH : Int) (hnd : input.isDragging = false)
    (hdv : input.dragVelX = 0 ∧ input.dragVelY = 0)
    (hx : 0 ≤ (c.beforeClamp config input).1.X ∧
      (c.beforeClamp config input).1.X ≤ ((worldW * TileSize : Int) : ℚ))
    (hy : 0 ≤ (c.beforeClamp config input).1.Y ∧
      (c.beforeClamp config input).1.Y ≤ ((worldH * TileSize : Int) : ℚ)) :
    (c.Update config input worldW worldH).1.VelX =
      (c.VelX + input.wasdVelX * (config.PanSpeed : ℚ) * 0.5)
        * (1 - (config.PanFriction : ℚ) * 0.01) := by
  have hfix := clampStep_of_in_bounds (c.beforeClamp config input).1 worldW worldH hx hy
  simp only [Camera.Update, hfix]
  simp only [Camera.beforeClamp, Camera.panStep, Camera.dragStep, hnd, hdv.1, hdv.2,
    zoomStep_VelX, Bool.false_eq_true, if_false, ne_eq, not_true_eq_false, or_self]
  norm_num

/-- Counterexample to C12 as stated: default config, key `D` held, no drag,
no bounds check firing; the camera moves at
`(PanSpeed*0.5)/(PanFriction*0.01) = 1.5625` and one tick changes its velocity
(to 1.4025). -/
theorem terminal_velocity_counterexample :
    fastCamera.VelX =
      ((DefaultConfig.PanSpeed : ℚ) * 0.5) / ((DefaultConfig.PanFriction : ℚ) * 0.01) ∧
    (0 ≤ (fastCamera.beforeClamp DefaultConfig keyDInput).1.X ∧
      (fastCamera.beforeClamp DefaultConfig keyDInput).1.X ≤ (((32 : Int) * TileSize : Int) : ℚ)) ∧
    (fastCamera.Update DefaultConfig keyDInput 32 32).1.VelX ≠ fastCamera.VelX := by
  norm_num [Camera.Update, Camera.beforeClamp, Camera.panStep, Camera.dragStep,
    Camera.zoomStep, Camera.clampStep, fastCamera, keyDInput, NewCamera, NewInput,
    DefaultConfig, TileSize]

/-- C12 (terminal pan velocity), amended: with a direction key held
(`wasdVelX = 1`), not dragging, no drag momentum pending, no bounds check
firing and `0 < PanFriction < 100`, one tick of `Camera.Update` turns `VelX`
into `(VelX + a) * (1 - f)` with `a = PanSpeed*0.5`, `f = PanFriction*0.01`.
The steady-state velocity is therefore `a * (1 - f) / f`: a tick leaves `VelX`
unchanged exactly when `VelX` equals that value, which is `1.0625` for
the default config; and from any `VelX` below it, in particular from rest
when `PanSpeed > 0`, a tick gives a strictly larger `VelX` that is still
below it, the distance to it being multiplied by `1 - f`. -/
theorem pan_velocity_step (c : Camera) (config : Config) (input : Input)
    (worldW worldH : Int) (hnd : input.isDragging = false) (hk : input.wasdVelX = 1)
    (hdv : input.dragVelX = 0 ∧ input.dragVelY = 0)
    (hx : 0 ≤ (c.beforeClamp config input).1.X ∧
      (c.beforeClamp config input).1.X ≤ ((worldW * TileSize : Int) : ℚ))
    (hy : 0 ≤ (c.beforeClamp config input).1.Y ∧
      (c.beforeClamp config input).1.Y ≤ ((worldH * TileSize : Int) : ℚ))
    (hf0 : 0 < config.PanFriction) (hf1 : config.PanFriction < 100) :
    (c.Update config input worldW worldH).1.VelX =
      (c.VelX + (config.PanSpeed : ℚ) * 0.5) * (1 - (config.PanFriction : ℚ) * 0.01) ∧
    ((c.Update config input worldW worldH).1.VelX = c.VelX ↔
      c.VelX = (config.PanSpeed : ℚ) * 0.5 * (1 - (config.PanFriction : ℚ) * 0.01)
        / ((config.PanFriction : ℚ) * 0.01)) ∧
    ((c.Update config input worldW worldH).1.VelX
        - (config.PanSpeed : ℚ) * 0.5 * (1 - (config.PanFriction : ℚ) * 0.01)
          / ((config.PanFriction : ℚ) * 0.01) =
      (1 - (config.PanFriction : ℚ) * 0.01) *
        (c.VelX - (config.PanSpeed : ℚ) * 0.5 * (1 - (config.PanFriction : ℚ) * 0.01)
          / ((config.PanFriction : ℚ) * 0.01))) ∧
    (c.VelX < (config.PanSpeed : ℚ) * 0.5 * (1 - (config.PanFriction : ℚ) * 0.01)
        / ((config.PanFriction : ℚ) * 0.01) →
      c.VelX < (c.Update config input worldW worldH).1.VelX ∧
      (c.Update config input worldW worldH).1.VelX <
        (config.PanSpeed : ℚ) * 0.5 * (1 - (config.PanFriction : ℚ) * 0.01)
          / ((config.PanFriction : ℚ) * 0.01)) ∧
    (0 < config.PanSpeed →
      (0 : ℚ) < (config.PanSpeed : ℚ) * 0.5 * (1 - (config.PanFriction : ℚ) * 0.01)
        / ((config.PanFriction : ℚ) * 0.01)) ∧
    (DefaultConfig.PanSpeed : ℚ) * 0.5 * (1 - (DefaultConfig.PanFriction : ℚ) * 0.01)
        / ((DefaultConfig.PanFriction : ℚ) * 0.01) = 1.0625 := by
  have hstep := update_VelX_of_keys c config input worldW worldH hnd hdv hx hy
  rw [hk, one_mul] at hstep
  have hF0 : (0 : ℚ) < (config.PanFriction : ℚ) := by exact_mod_cast hf0
  have hF1 : (config.PanFriction : ℚ) < 100 := by exact_mod_cast hf1
  have hf : (0 : ℚ) < (config.PanFriction : ℚ) * 0.01 := by linarith
  have hf' : (config.PanFriction : ℚ) * 0.01 < 1 := by linarith
  have hT : ∀ v : ℚ, (v + (config.PanSpeed : ℚ) * 0.5) * (1 - (config.PanFriction : ℚ) * 0.01)
      - (config.PanSpeed : ℚ) * 0.5 * (1 - (config.PanFriction : ℚ) * 0.01)
          / ((config.PanFriction : ℚ) * 0.01) =
      (1 - (config.PanFriction : ℚ) * 0.01) *
        (v - (config.PanSpeed : ℚ) * 0.5 * (1 - (config.PanFriction : ℚ) * 0.01)
          / ((config.PanFriction : ℚ) * 0.01)) := by
    intro v
    field_simp
    ring
  have hgap := hT c.VelX
  rw [← hstep] at hgap
  refine ⟨hstep, ?_, hgap, ?_, ?_, ?_⟩
  · constructor
    · intro h
      rw [h] at hgap
      have h2 : ((config.PanFriction : ℚ) * 0.01) *
          (c.VelX - (config.PanSpeed : ℚ) * 0.5 * (1 - (config.PanFriction : ℚ) * 0.01)
            / ((config.PanFriction : ℚ) * 0.01)) = 0 := by linarith
      rcases mul_eq_zero.mp h2 with h3 | h3
      · exact absurd h3 (ne_of_gt hf)
      · linarith
    · intro h
      rw [h] at hgap
      rw [sub_self, mul_zero] at hgap
      rw [h]
      linarith
  · intro hlt
    have hneg : c.VelX - (config.PanSpeed : ℚ) * 0.5 * (1 - (config.PanFriction : ℚ) * 0.01)
          / ((config.PanFriction : ℚ) * 0.01) < 0 := by linarith
    have h1 : (1 - (config.PanFriction : ℚ) * 0.01) *
        (c.VelX - (config.PanSpeed : ℚ) * 0.5 * (1 - (config.PanFriction : ℚ) * 0.01)
          / ((config.PanFriction : ℚ) * 0.01)) < 0 :=
      mul_neg_of_pos_of_neg (by linarith) hneg
    have h2 : ((config.PanFriction : ℚ) * 0.01) *
        (c.VelX - (config.PanSpeed : ℚ) * 0.5 * (1 - (config.PanFriction : ℚ) * 0.01)
          / ((config.PanFriction : ℚ) * 0.01)) < 0 :=
      mul_neg_of_pos_of_neg hf hneg
    constructor <;> linarith
  · intro hs
    have hS : (0 : ℚ) < (config.PanSpeed : ℚ) := by exact_mod_cast hs
    have h1 : (0 : ℚ) < 1 - (config.PanFriction : ℚ) * 0.01 := by linarith
    positivity
  · norm_num [DefaultConfig]

/-- Witness of the amended C12: the initial camera of a 32 x 32 world, default
config, key `D` held: from rest the velocity becomes 0.34. -/
theorem pan_velocity_step_witness :
    (NewCamera 800 600 32 32).VelX = 0 ∧
    ((NewCamera 800 600 32 32).Update DefaultConfig keyDInput 32 32).1.VelX = 0.34 := by
  have h := pan_velocity_step (NewCamera 800 600 32 32) DefaultConfig keyDInput 32 32 rfl rfl
    ⟨rfl, rfl⟩
    (by norm_num [Camera.beforeClamp, Camera.panStep, Camera.dragStep, Camera.zoomStep,
      keyDInput, NewCamera, NewInput, DefaultConfig, TileSize])
    (by norm_num [Camera.beforeClamp, Camera.panStep, Camera.dragStep, Camera.zoomStep,
      keyDInput, NewCamera, NewInput, DefaultConfig, TileSize])
    (by decide) (by decide)
  refine ⟨rfl, h.1.trans ?_⟩
  norm_num [NewCamera, DefaultConfig]

/-! ## The position clamp zeroes the velocity -/

theorem clampStep_X_of_lt (c : Camera) (worldW worldH : Int) (hW : 0 ≤ worldW)
    (h : c.X < 0) :
    (c.clampStep worldW worldH).X = 0 ∧ (c.clampStep worldW worldH).VelX = 0 := by
  have hw : (0 : ℚ) ≤ ((worldW * TileSize : Int) : ℚ) := by
    have : (0 : Int) ≤ worldW * TileSize := Int.mul_nonneg hW (by decide)
    exact_mod_cast this
  unfold Camera.clampStep
  dsimp only
  split_ifs <;> simp_all <;> linarith

theorem clampStep_X_of_gt (c : Camera) (worldW worldH : Int)
    (h : c.X > ((worldW * TileSize : Int) : ℚ)) :
    (c.clampStep worldW worldH).X = ((worldW * TileSize : Int) : ℚ) ∧
      (c.clampStep worldW worldH).VelX = 0 := by
  unfold Camera.clampStep
  dsimp only
  split_ifs <;> simp_all <;> linarith

theorem clampStep_Y_of_lt (c : Camera) (worldW worldH : Int) (hH : 0 ≤ worldH)
    (h : c.Y < 0) :
    (c.clampStep worldW worldH).Y = 0 ∧ (c.clampStep worldW worldH).VelY = 0 := by
  have hw : (0 : ℚ) ≤ ((worldH * TileSize : Int) : ℚ) := by
    have : (0 : Int) ≤ worldH * TileSize := Int.mul_nonneg hH (by decide)
    exact_mod_cast this
  unfold Camera.clampStep
  dsimp only
  split_ifs <;> simp_all <;> linarith

theorem clampStep_Y_of_gt (c : Camera) (worldW worldH : Int)
    (h : c.Y > ((worldH * TileSize : Int) : ℚ)) :
    (c.clampStep worldW worldH).Y = ((worldH * TileSize : Int) : ℚ) ∧
      (c.clampStep worldW worldH).VelY = 0 := by
  unfold Camera.clampStep
  dsimp only
  split_ifs <;> simp_all <;> linarith

theorem beforeClamp_X_of_keys (c : Camera) (config : Config) (input : Input)
    (hnd : input.isDragging = false) :
    (c.beforeClamp config input).1.X =
      c.X + (c.VelX + input.wasdVelX * (config.PanSpeed : ℚ) * 0.5)
        * (1 - (config.PanFriction : ℚ) * 0.01) := by
  simp only [Camera.beforeClamp, Camera.panStep, Camera.dragStep, hnd, zoomStep_X,
    Bool.false_eq_true, if_false]
  split_ifs <;> norm_num

theorem update_dragVel_of_not_dragging (c : Camera) (config : Config) (input : Input)
    (worldW worldH : Int) (hnd : input.isDragging = false) :
    (c.Update config input worldW worldH).2.dragVelX = 0 ∧
    (c.Update config input worldW worldH).2.dragVelY = 0 := by
  simp only [Camera.Update, Camera.beforeClamp, Camera.dragStep, hnd,
    Bool.false_eq_true, if_false]
  split_ifs with h
  · exact ⟨rfl, rfl⟩
  · simp only [ne_eq, not_or, not_not] at h
    exact h

/-- C16 (the position clamp zeroes the velocity): in a world with `W, H ≥ 0`,
whenever the position reaching the bounds checks of `Camera.Update` is below
0 or above `W * TileSize` on the X axis, the final `X` is the violated bound
and the final `VelX` is 0; the same for `Y`, `H` and `VelY`.  In particular,
from `X = 0`, `VelX = 0`, not dragging, with `A` held (`wasdVelX = -1`),
`PanSpeed > 0` and `PanFriction < 100`, a tick leaves `X = 0` and `VelX = 0`,
and a following tick with the key released (`wasdVelX = 0`, still not
dragging, the drag velocity as the first tick left it) leaves `X = 0` and
`VelX = 0` again. -/
theorem update_clamp_zeroes_velocity (c : Camera) (config : Config) (input : Input)
    (worldW worldH : Int) (hW : 0 ≤ worldW) (hH : 0 ≤ worldH) :
    ((c.beforeClamp config input).1.X < 0 →
      (c.Update config input worldW worldH).1.X = 0 ∧
      (c.Update config input worldW worldH).1.VelX = 0) ∧
    ((c.beforeClamp config input).1.X > ((worldW * TileSize : Int) : ℚ) →
      (c.Update config input worldW worldH).1.X = ((worldW * TileSize : Int) : ℚ) ∧
      (c.Update config input worldW worldH).1.VelX = 0) ∧
    ((c.beforeClamp config input).1.Y < 0 →
      (c.Update config input worldW worldH).1.Y = 0 ∧
      (c.Update config input worldW worldH).1.VelY = 0) ∧
    ((c.beforeClamp config input).1.Y > ((worldH * TileSize : Int) : ℚ) →
      (c.Update config input worldW worldH).1.Y = ((worldH * TileSize : Int) : ℚ) ∧
      (c.Update config input worldW worldH).1.VelY = 0) ∧
    (c.X = 0 → c.VelX = 0 → input.isDragging = false → input.wasdVelX = -1 →
      0 < config.PanSpeed → config.PanFriction < 100 →
      ((c.Update config input worldW worldH).1.X = 0 ∧
        (c.Update config input worldW worldH).1.VelX = 0) ∧
      ∀ after : Input, after.isDragging = false → after.wasdVelX = 0 →
        after.dragVelX = (c.Update config input worldW worldH).2.dragVelX →
        after.dragVelY = (c.Update config input worldW worldH).2.dragVelY →
        ((c.Update config input worldW worldH).1.Update config after worldW worldH).1.X = 0 ∧
        ((c.Update config input worldW worldH).1.Update config after worldW worldH).1.VelX
          = 0) := by
  refine ⟨fun h => clampStep_X_of_lt _ worldW worldH hW h,
    fun h => clampStep_X_of_gt _ worldW worldH h,
    fun h => clampStep_Y_of_lt _ worldW worldH hH h,
    fun h => clampStep_Y_of_gt _ worldW worldH h, ?_⟩
  intro hX hV hnd hk hs hf
  have hS : (0 : ℚ) < (config.PanSpeed : ℚ) := by exact_mod_cast hs
  have hF : (config.PanFriction : ℚ) < 100 := by exact_mod_cast hf
  have hpre : (c.beforeClamp config input).1.X < 0 := by
    rw [beforeClamp_X_of_keys c config input hnd, hX, hV, hk]
    have h1 : (0 : ℚ) < 1 - (config.PanFriction : ℚ) * 0.01 := by linarith
    have h2 : (0 : ℚ) < (config.PanSpeed : ℚ) * 0.5 * (1 - (config.PanFriction : ℚ) * 0.01) :=
      by positivity
    linarith
  have hfirst := clampStep_X_of_lt (c.beforeClamp config input).1 worldW worldH hW hpre
  refine ⟨hfirst, ?_⟩
  intro after hnd2 hk2 hvx hvy
  obtain ⟨hd1, hd2⟩ := update_dragVel_of_not_dragging c config input worldW worldH hnd
  have hX1 : (c.Update config input worldW worldH).1.X = 0 := hfirst.1
  have hV1 : (c.Update config input worldW worldH).1.VelX = 0 := hfirst.2
  have hpre2 : ((c.Update config input worldW worldH).1.beforeClamp config after).1.X = 0 := by
    rw [beforeClamp_X_of_keys _ config after hnd2, hX1, hV1, hk2]
    ring
  have hpreV : ((c.Update config input worldW worldH).1.beforeClamp config after).1.VelX = 0 := by
    simp only [Camera.beforeClamp, Camera.panStep, Camera.dragStep, hnd2, hvx, hvy, hd1, hd2,
      zoomStep_VelX, Bool.false_eq_true, if_false, ne_eq, not_true_eq_false, or_self, hV1, hk2]
    ring
  have hw : (0 : ℚ) ≤ ((worldW * TileSize : Int) : ℚ) := by
    have : (0 : Int) ≤ worldW * TileSize := Int.mul_nonneg hW (by decide)
    exact_mod_cast this
  have hfinal : ∀ d : Camera, d.X = 0 → d.VelX = 0 →
      (d.clampStep worldW worldH).X = 0 ∧ (d.clampStep worldW worldH).VelX = 0 := by
    intro d hdX hdV
    unfold Camera.clampStep
    dsimp only
    split_ifs <;> simp_all <;> linarith
  exact hfinal _ hpre2 hpreV

/-- Witness of C16: the camera in the north-west corner of a 32 x 32 world
with `A` and `W` held, then all keys released. -/
theorem update_clamp_zeroes_velocity_witness :
    ((0 : Int) ≤ 32 ∧ (0 : Int) ≤ 32) ∧
    ((cornerCamera.Update DefaultConfig keysAWInput 32 32).1.X = 0 ∧
      (cornerCamera.Update DefaultConfig keysAWInput 32 32).1.VelX = 0) ∧
    (((cornerCamera.Update DefaultConfig keysAWInput 32 32).1.Update DefaultConfig
        NewInput 32 32).1.X = 0 ∧
      ((cornerCamera.Update DefaultConfig keysAWInput 32 32).1.Update DefaultConfig
        NewInput 32 32).1.VelX = 0) := by
  have h := (update_clamp_zeroes_velocity cornerCamera DefaultConfig keysAWInput 32 32
    (by decide) (by decide)).2.2.2.2 rfl rfl rfl rfl (by decide) (by decide)
  have hd := update_dragVel_of_not_dragging cornerCamera DefaultConfig keysAWInput 32 32 rfl
  exact ⟨⟨by decide, by decide⟩, h.1, h.2 NewInput rfl rfl hd.1.symm hd.2.symm⟩

/-! ## Zoom integration order -/

theorem panStep_Zoom (c : Camera) (config : Config) (input : Input) :
    (c.panStep config input).Zoom = c.Zoom ∧ (c.panStep config input).ZoomVel = c.ZoomVel := by
  unfold Camera.panStep
  split_ifs <;> exact ⟨rfl, rfl⟩

theorem dragStep_Zoom (c : Camera) (input : Input) :
    (c.dragStep input).1.Zoom = c.Zoom ∧ (c.dragStep input).1.ZoomVel = c.ZoomVel := by
  unfold Camera.dragStep
  split_ifs <;> exact ⟨rfl, rfl⟩

theorem zoomStep_ZoomVel (c : Camera) (config : Config) :
    (c.zoomStep config).ZoomVel = c.ZoomVel * (1 - (config.ZoomFriction : ℚ) * 0.01) := by
  unfold Camera.zoomStep
  norm_num

theorem zoomStep_Zoom (c : Camera) (config : Config) :
    (c.zoomStep config).Zoom =
      min ((config.MaxZoom : ℚ) * 0.1)
        (max ((config.MinZoom : ℚ) * 0.1)
          (c.Zoom + c.ZoomVel * (1 - (config.ZoomFriction : ℚ) * 0.01))) := by
  have h10 : (1.0 : ℚ) = 1 := by norm_num
  unfold Camera.zoomStep
  dsimp only
  rw [h10]
  split_ifs with h1 h2 h2
  · rw [max_eq_left (le_of_lt h1), min_eq_left (le_of_lt h2)]
  · rw [max_eq_left (le_of_lt h1), min_eq_right (not_lt.mp h2)]
  · rw [max_eq_right (not_lt.mp h1), min_eq_left (le_of_lt h2)]
  · rw [max_eq_right (not_lt.mp h1), min_eq_right (not_lt.mp h2)]

theorem update_ZoomVel (c : Camera) (config : Config) (input : Input)
    (worldW worldH : Int) :
    (c.Update config input worldW worldH).1.ZoomVel =
      c.ZoomVel * (1 - (config.ZoomFriction : ℚ) * 0.01) := by
  simp only [Camera.Update, clampStep_ZoomVel, Camera.beforeClamp, zoomStep_ZoomVel,
    (dragStep_Zoom _ _).2, (panStep_Zoom _ _ _).2]

theorem update_Zoom (c : Camera) (config : Config) (input : Input)
    (worldW worldH : Int) :
    (c.Update config input worldW worldH).1.Zoom =
      min ((config.MaxZoom : ℚ) * 0.1)
        (max ((config.MinZoom : ℚ) * 0.1)
          (c.Zoom + c.ZoomVel * (1 - (config.ZoomFriction : ℚ) * 0.01))) := by
  simp only [Camera.Update, clampStep_Zoom, Camera.beforeClamp, zoomStep_Zoom,
    (dragStep_Zoom _ _).1, (dragStep_Zoom _ _).2, (panStep_Zoom _ _ _).1,
    (panStep_Zoom _ _ _).2]

theorem handleZoom_ZoomVel (input : Input) (c : Camera) (config : Config) (h : Host) :
    (input.HandleZoom c config h).ZoomVel =
      c.ZoomVel + h.wheelY * (config.ZoomSpeed : ℚ) * 0.001 := by
  unfold Input.HandleZoom
  dsimp only
  split_ifs with h0
  · dsimp only
    ring
  · simp only [ne_eq, not_not] at h0
    rw [h0]
    ring

theorem handleZoom_Zoom (input : Input) (c : Camera) (config : Config) (h : Host) :
    (input.HandleZoom c config h).Zoom = c.Zoom := by
  unfold Input.HandleZoom
  dsimp only
  split_ifs <;> rfl

/-- C17 (zoom integration order): one frame, `Input.HandleZoom` with wheel
delta `dw` followed by `Camera.Update`, gives
`ZoomVel' = (ZoomVel + dw*ZoomSpeed*0.001) * (1 - ZoomFriction*0.01)` and
`Zoom' = clamp(Zoom + ZoomVel', MinZoom*0.1, MaxZoom*0.1)`, the clamp being
the lower bound first and the upper bound second; the formula for `ZoomVel'`
holds whether or not the zoom is clamped.  For the default config,
`Zoom = 1.0`, `ZoomVel = 0` and `dw = +1`: `ZoomVel = 0.01` after
`HandleZoom`, and `ZoomVel = 0.008`, `Zoom = 1.008` after the tick. -/
theorem zoom_frame (c : Camera) (config : Config) (input : Input) (h : Host)
    (worldW worldH : Int) :
    (input.HandleZoom c config h).ZoomVel =
      c.ZoomVel + h.wheelY * (config.ZoomSpeed : ℚ) * 0.001 ∧
    ((input.HandleZoom c config h).Update config input worldW worldH).1.ZoomVel =
      (c.ZoomVel + h.wheelY * (config.ZoomSpeed : ℚ) * 0.001)
        * (1 - (config.ZoomFriction : ℚ) * 0.01) ∧
    ((input.HandleZoom c config h).Update config input worldW worldH).1.Zoom =
      min ((config.MaxZoom : ℚ) * 0.1)
        (max ((config.MinZoom : ℚ) * 0.1)
          (c.Zoom + ((input.HandleZoom c config h).Update config input worldW worldH).1.ZoomVel)) ∧
    (NewInput.HandleZoom (NewCamera 800 600 32 32) DefaultConfig wheelUpFrame).ZoomVel = 0.01 ∧
    ((NewInput.HandleZoom (NewCamera 800 600 32 32) DefaultConfig wheelUpFrame).Update
        DefaultConfig NewInput 32 32).1.ZoomVel = 0.008 ∧
    ((NewInput.HandleZoom (NewCamera 800 600 32 32) DefaultConfig wheelUpFrame).Update
        DefaultConfig NewInput 32 32).1.Zoom = 1.008 := by
  have hv : ∀ (c : Camera) (config : Config) (input : Input) (h : Host) (worldW worldH : Int),
      ((input.HandleZoom c config h).Update config input worldW worldH).1.ZoomVel =
        (c.ZoomVel + h.wheelY * (config.ZoomSpeed : ℚ) * 0.001)
          * (1 - (config.ZoomFriction : ℚ) * 0.01) := by
    intro c config input h worldW worldH
    rw [update_ZoomVel, handleZoom_ZoomVel]
  have hz : ∀ (c : Camera) (config : Config) (input : Input) (h : Host) (worldW worldH : Int),
      ((input.HandleZoom c config h).Update config input worldW worldH).1.Zoom =
        min ((config.MaxZoom : ℚ) * 0.1)
          (max ((config.MinZoom : ℚ) * 0.1)
            (c.Zoom +
              ((input.HandleZoom c config h).Update config input worldW worldH).1.ZoomVel)) := by
    intro c config input h worldW worldH
    rw [update_Zoom, update_ZoomVel, handleZoom_Zoom]
  refine ⟨handleZoom_ZoomVel input c config h, hv c config input h worldW worldH,
    hz c config input h worldW worldH, ?_, ?_, ?_⟩
  · rw [handleZoom_ZoomVel]
    norm_num [NewCamera, DefaultConfig, wheelUpFrame]
  · rw [hv]
    norm_num [NewCamera, DefaultConfig, wheelUpFrame]
  · rw [hz, hv]
    norm_num [NewCamera, DefaultConfig, wheelUpFrame]

/-! ## Rest is a fixed point -/

theorem handleZoom_of_no_wheel (input : Input) (c : Camera) (config : Config) (h : Host)
    (hw : h.wheelY = 0) : input.HandleZoom c config h = c := by
  unfold Input.HandleZoom
  dsimp only
  rw [if_neg (by simp [hw])]

theorem beforeClamp_of_rest (c : Camera) (config : Config) (input : Input)
    (hvx : c.VelX = 0) (hvy : c.VelY = 0) (hvz : c.ZoomVel = 0)
    (hz : (config.MinZoom : ℚ) * 0.1 ≤ c.Zoom ∧ c.Zoom ≤ (config.MaxZoom : ℚ) * 0.1)
    (hnd : input.isDragging = false)
    (hk : input.wasdVelX = 0 ∧ input.wasdVelY = 0)
    (hdv : input.dragVelX = 0 ∧ input.dragVelY = 0) :
    c.beforeClamp config input = (c, input) := by
  obtain ⟨X, Y, Zoom, VelX, VelY, ZoomVel, sw, sh⟩ := c
  simp only at hvx hvy hvz hz
  subst hvx hvy hvz
  simp only [Camera.beforeClamp, Camera.panStep, Camera.dragStep, Camera.zoomStep, hnd,
    hk.1, hk.2, hdv.1, hdv.2, Bool.false_eq_true, if_false, ne_eq, not_true_eq_false,
    or_self, zero_mul, add_zero, mul_zero, zero_add]
  rw [if_neg (not_lt.mpr hz.1), if_neg (not_lt.mpr hz.2)]

/-- C18 (rest is a fixed point): for every camera state with zero `VelX`,
`VelY`, `ZoomVel`, with `MinZoom*0.1 ≤ Zoom ≤ MaxZoom*0.1`,
`0 ≤ X ≤ W*TileSize`, `0 ≤ Y ≤ H*TileSize`, and every input with
`isDragging = false`, no keys, wheel delta 0 and drag velocity `(0, 0)`, one
frame (`HandleZoom` then `Camera.Update`) returns the same camera and the
same input, drag fields included. -/
theorem rest_is_fixed_point (c : Camera) (config : Config) (input : Input) (h : Host)
    (worldW worldH : Int)
    (hvx : c.VelX = 0) (hvy : c.VelY = 0) (hvz : c.ZoomVel = 0)
    (hz : (config.MinZoom : ℚ) * 0.1 ≤ c.Zoom ∧ c.Zoom ≤ (config.MaxZoom : ℚ) * 0.1)
    (hx : 0 ≤ c.X ∧ c.X ≤ ((worldW * TileSize : Int) : ℚ))
    (hy : 0 ≤ c.Y ∧ c.Y ≤ ((worldH * TileSize : Int) : ℚ))
    (hnd : input.isDragging = false)
    (hk : input.wasdVelX = 0 ∧ input.wasdVelY = 0)
    (hw : h.wheelY = 0)
    (hdv : input.dragVelX = 0 ∧ input.dragVelY = 0) :
    (input.HandleZoom c config h).Update config input worldW worldH = (c, input) ∧
    ((input.HandleZoom c config h).Update config input worldW worldH).2.dragFields
      = input.dragFields := by
  have h1 : (input.HandleZoom c config h).Update config input worldW worldH = (c, input) := by
    rw [handleZoom_of_no_wheel input c config h hw]
    unfold Camera.Update
    dsimp only
    rw [beforeClamp_of_rest c config input hvx hvy hvz hz hnd hk hdv]
    dsimp only
    rw [clampStep_of_in_bounds c worldW worldH hx hy]
  exact ⟨h1, by rw [h1]⟩

/-- Witness of C18: the initial state of a 32 x 32 world with the default
config (camera of `NewCamera`, input of `NewInput`) satisfies the conditions
and is left unchanged by an idle frame. -/
theorem rest_is_fixed_point_witness :
    ((NewCamera 800 600 32 32).VelX = 0 ∧ (NewCamera 800 600 32 32).VelY = 0 ∧
      (NewCamera 800 600 32 32).ZoomVel = 0) ∧
    ((DefaultConfig.MinZoom : ℚ) * 0.1 ≤ (NewCamera 800 600 32 32).Zoom ∧
      (NewCamera 800 600 32 32).Zoom ≤ (DefaultConfig.MaxZoom : ℚ) * 0.1) ∧
    (0 ≤ (NewCamera 800 600 32 32).X ∧
      (NewCamera 800 600 32 32).X ≤ (((32 : Int) * TileSize : Int) : ℚ)) ∧
    (0 ≤ (NewCamera 800 600 32 32).Y ∧
      (NewCamera 800 600 32 32).Y ≤ (((32 : Int) * TileSize : Int) : ℚ)) ∧
    (NewInput.HandleZoom (NewCamera 800 600 32 32) DefaultConfig idleFrame).Update
        DefaultConfig NewInput 32 32 = (NewCamera 800 600 32 32, NewInput) := by
  have hz : (DefaultConfig.MinZoom : ℚ) * 0.1 ≤ (NewCamera 800 600 32 32).Zoom ∧
      (NewCamera 800 600 32 32).Zoom ≤ (DefaultConfig.MaxZoom : ℚ) * 0.1 := by
    norm_num [NewCamera, DefaultConfig]
  have hx : 0 ≤ (NewCamera 800 600 32 32).X ∧
      (NewCamera 800 600 32 32).X ≤ (((32 : Int) * TileSize : Int) : ℚ) := by
    norm_num [NewCamera, TileSize]
  have hy : 0 ≤ (NewCamera 800 600 32 32).Y ∧
      (NewCamera 800 600 32 32).Y ≤ (((32 : Int) * TileSize : Int) : ℚ) := by
    norm_num [NewCamera, TileSize]
  exact ⟨⟨rfl, rfl, rfl⟩, hz, hx, hy,
    (rest_is_fixed_point (NewCamera 800 600 32 32) DefaultConfig NewInput idleFrame 32 32
      rfl rfl rfl hz hx hy rfl ⟨rfl, rfl⟩ rfl ⟨rfl, rfl⟩).1⟩

/-! ## Culling and the screen transform -/

theorem drawTile_screen (g : Game) (x y : Int) (call : DrawCall)
    (h : g.drawTile x y = some call) :
    call.screenX = g.toScreenX ((x * TileSize : Int) : ℚ) ∧
    call.screenY = g.toScreenY ((y * TileSize : Int) : ℚ) ∧
    call.scale = g.camera.Zoom := by
  unfold Game.drawTile at h
  dsimp only at h
  split at h
  · exact absurd h (by simp)
  · simp only [Option.some.injEq] at h
    subst h
    exact ⟨rfl, rfl, rfl⟩

theorem toScreen_edges (g : Game) (hz : 0 < g.camera.Zoom) :
    g.toScreenX g.leftWorld = 0 ∧ g.toScreenX g.rightWorld = (g.screenWidth : ℚ) ∧
    g.toScreenY g.topWorld = 0 ∧ g.toScreenY g.bottomWorld = (g.screenHeight : ℚ) := by
  have hz0 : g.camera.Zoom ≠ 0 := ne_of_gt hz
  unfold Game.toScreenX Game.toScreenY Game.leftWorld Game.rightWorld Game.topWorld
    Game.bottomWorld
  refine ⟨?_, ?_, ?_, ?_⟩ <;> field_simp <;> ring

theorem column_culled (g : Game) (tx : Int) (hz : 0 < g.camera.Zoom)
    (hfit : Int.ceil (g.rightWorld / (TileSize : ℚ)) < 9223372036854775808)
    (h0 : 0 ≤ tx) (hW : tx < g.world.width)
    (h : ¬ (g.tileRange.startTileX ≤ tx ∧ tx < g.tileRange.endTileX)) :
    g.toScreenX ((tx * TileSize : Int) : ℚ) ≥ (g.screenWidth : ℚ) ∨
    g.toScreenX ((tx * TileSize : Int) : ℚ) + (TileSize : ℚ) * g.camera.Zoom ≤ 0 := by
  obtain ⟨hl, hr, -, -⟩ := toScreen_edges g hz
  have e1 := edgeToTile_spec g (Int.floor (g.leftWorld / (TileSize : ℚ))) (ne_of_gt hz)
  have e2 := edgeToTile_spec g (Int.ceil (g.rightWorld / (TileSize : ℚ))) (ne_of_gt hz)
  have hcases : tx + 1 ≤ Int.floor (g.leftWorld / (TileSize : ℚ)) ∨
      Int.ceil (g.rightWorld / (TileSize : ℚ)) ≤ tx := by
    simp only [Game.tileRange] at h
    split_ifs at h <;> omega
  have hS : ((TileSize : Int) : ℚ) = 32 := by norm_num [TileSize]
  rcases hcases with hc | hc
  · right
    have h1 : ((tx + 1 : Int) : ℚ) ≤ g.leftWorld / (TileSize : ℚ) := Int.le_floor.mp hc
    rw [hS, le_div_iff₀ (by norm_num)] at h1
    push_cast at h1
    have h2 : g.toScreenX ((tx * TileSize : Int) : ℚ) + (TileSize : ℚ) * g.camera.Zoom =
        g.toScreenX g.leftWorld - (g.leftWorld - ((tx : ℚ) + 1) * 32) * g.camera.Zoom := by
      unfold Game.toScreenX
      push_cast [TileSize]
      ring
    rw [h2, hl]
    have h3 : 0 ≤ (g.leftWorld - ((tx : ℚ) + 1) * 32) * g.camera.Zoom :=
      mul_nonneg (by linarith) (le_of_lt hz)
    linarith
  · left
    have h1 : g.rightWorld / (TileSize : ℚ) ≤ ((tx : Int) : ℚ) := Int.ceil_le.mp hc
    rw [hS, div_le_iff₀ (by norm_num)] at h1
    have h2 : g.toScreenX ((tx * TileSize : Int) : ℚ) =
        g.toScreenX g.rightWorld + ((tx : ℚ) * 32 - g.rightWorld) * g.camera.Zoom := by
      unfold Game.toScreenX
      push_cast [TileSize]
      ring
    rw [h2, hr]
    have h3 : 0 ≤ ((tx : ℚ) * 32 - g.rightWorld) * g.camera.Zoom :=
      mul_nonneg (by linarith) (le_of_lt hz)
    linarith

theorem row_culled (g : Game) (ty : Int) (hz : 0 < g.camera.Zoom)
    (hfit : Int.ceil (g.bottomWorld / (TileSize : ℚ)) < 9223372036854775808)
    (h0 : 0 ≤ ty) (hH : ty < g.world.height)
    (h : ¬ (g.tileRange.startTileY ≤ ty ∧ ty < g.tileRange.endTileY)) :
    g.toScreenY ((ty * TileSize : Int) : ℚ) ≥ (g.screenHeight : ℚ) ∨
    g.toScreenY ((ty * TileSize : Int) : ℚ) + (TileSize : ℚ) * g.camera.Zoom ≤ 0 := by
  obtain ⟨-, -, ht, hb⟩ := toScreen_edges g hz
  have e1 := edgeToTile_spec g (Int.floor (g.topWorld / (TileSize : ℚ))) (ne_of_gt hz)
  have e2 := edgeToTile_spec g (Int.ceil (g.bottomWorld / (TileSize : ℚ))) (ne_of_gt hz)
  have hcases : ty + 1 ≤ Int.floor (g.topWorld / (TileSize : ℚ)) ∨
      Int.ceil (g.bottomWorld / (TileSize : ℚ)) ≤ ty := by
    simp only [Game.tileRange] at h
    split_ifs at h <;> omega
  have hS : ((TileSize : Int) : ℚ) = 32 := by norm_num [TileSize]
  rcases hcases with hc | hc
  · right
    have h1 : ((ty + 1 : Int) : ℚ) ≤ g.topWorld / (TileSize : ℚ) := Int.le_floor.mp hc
    rw [hS, le_div_iff₀ (by norm_num)] at h1
    push_cast at h1
    have h2 : g.toScreenY ((ty * TileSize : Int) : ℚ) + (TileSize : ℚ) * g.camera.Zoom =
        g.toScreenY g.topWorld - (g.topWorld - ((ty : ℚ) + 1) * 32) * g.camera.Zoom := by
      unfold Game.toScreenY
      push_cast [TileSize]
      ring
    rw [h2, ht]
    have h3 : 0 ≤ (g.topWorld - ((ty : ℚ) + 1) * 32) * g.camera.Zoom :=
      mul_nonneg (by linarith) (le_of_lt hz)
    linarith
  · left
    have h1 : g.bottomWorld / (TileSize : ℚ) ≤ ((ty : Int) : ℚ) := Int.ceil_le.mp hc
    rw [hS, div_le_iff₀ (by norm_num)] at h1
    have h2 : g.toScreenY ((ty * TileSize : Int) : ℚ) =
        g.toScreenY g.bottomWorld + ((ty : ℚ) * 32 - g.bottomWorld) * g.camera.Zoom := by
      unfold Game.toScreenY
      push_cast [TileSize]
      ring
    rw [h2, hb]
    have h3 : 0 ≤ ((ty : ℚ) * 32 - g.bottomWorld) * g.camera.Zoom :=
      mul_nonneg (by linarith) (le_of_lt hz)
    linarith

/-- Counterexample to C20 as stated: in `smallGame` with the zoom `2^-70 > 0`
the loops of `Game.Draw` execute at no tile (the conversion of
`ceil(rightWorld / 32)` to `int` is out of range), yet the in-world tile
`(0, 0)` is on screen: its square starts at about `(24, 20)` in the 48 x 40
viewport and none of the four off-screen conditions holds. -/
theorem culled_tiles_counterexample :
    (0 < tinyZoomGame.camera.Zoom ∧
      (0 : Int) < tinyZoomGame.world.width ∧ (0 : Int) < tinyZoomGame.world.height ∧
      ((0 : Int), (0 : Int)) ∉ tinyZoomGame.visited) ∧
    ¬ (tinyZoomGame.toScreenX (((0 : Int) * TileSize : Int) : ℚ)
          ≥ (tinyZoomGame.screenWidth : ℚ) ∨
        tinyZoomGame.toScreenX (((0 : Int) * TileSize : Int) : ℚ)
          + (TileSize : ℚ) * tinyZoomGame.camera.Zoom ≤ 0 ∨
        tinyZoomGame.toScreenY (((0 : Int) * TileSize : Int) : ℚ)
          ≥ (tinyZoomGame.screenHeight : ℚ) ∨
        tinyZoomGame.toScreenY (((0 : Int) * TileSize : Int) : ℚ)
          + (TileSize : ℚ) * tinyZoomGame.camera.Zoom ≤ 0) := by
  have hz : 0 < tinyZoomGame.camera.Zoom := by
    norm_num [tinyZoomGame, smallGame, NewCamera]
  refine ⟨⟨hz, by decide, by decide, ?_⟩, ?_⟩
  · rw [tinyZoomGame_visited.2]
    exact List.not_mem_nil _
  · norm_num [Game.toScreenX, Game.toScreenY, tinyZoomGame, smallGame, NewCamera, TileSize]

/-- C20 (culling agrees with the screen transform), amended: for `Zoom > 0`
the transform of `Game.Draw`, `sx = (wx - X)*Zoom + Sw/2`, sends `leftWorld`
and `rightWorld` to the screen abscissas `0` and `Sw`, and `topWorld`,
`bottomWorld` to the ordinates `0` and `Sh`; and, when `ceil(rightWorld / S)`
and `ceil(bottomWorld / S)` fit in an `int` (are below `2^63`), every tile of
the world (`0 ≤ tx < W`, `0 ≤ ty < H`) at which the loops of `Game.Draw` do
not execute has its on-screen square `[sx, sx + S*Zoom] x [sy, sy + S*Zoom]`
off screen: `sx ≥ Sw` or `sx + S*Zoom ≤ 0` or `sy ≥ Sh` or
`sy + S*Zoom ≤ 0`. -/
theorem culled_tiles_off_screen_of_fit (g : Game) (tx ty : Int) (hz : 0 < g.camera.Zoom)
    (hfitX : Int.ceil (g.rightWorld / (TileSize : ℚ)) < 2 ^ 63)
    (hfitY : Int.ceil (g.bottomWorld / (TileSize : ℚ)) < 2 ^ 63)
    (htx : 0 ≤ tx ∧ tx < g.world.width) (hty : 0 ≤ ty ∧ ty < g.world.height)
    (hnv : (tx, ty) ∉ g.visited) :
    (g.toScreenX g.leftWorld = 0 ∧ g.toScreenX g.rightWorld = (g.screenWidth : ℚ) ∧
      g.toScreenY g.topWorld = 0 ∧ g.toScreenY g.bottomWorld = (g.screenHeight : ℚ)) ∧
    (g.toScreenX ((tx * TileSize : Int) : ℚ) ≥ (g.screenWidth : ℚ) ∨
      g.toScreenX ((tx * TileSize : Int) : ℚ) + (TileSize : ℚ) * g.camera.Zoom ≤ 0 ∨
      g.toScreenY ((ty * TileSize : Int) : ℚ) ≥ (g.screenHeight : ℚ) ∨
      g.toScreenY ((ty * TileSize : Int) : ℚ) + (TileSize : ℚ) * g.camera.Zoom ≤ 0) := by
  refine ⟨toScreen_edges g hz, ?_⟩
  have hpow : (2 : Int) ^ 63 = 9223372036854775808 := by norm_num
  rw [hpow] at hfitX hfitY
  have hnot : ¬ ((g.tileRange.startTileX ≤ tx ∧ tx < g.tileRange.endTileX) ∧
      (g.tileRange.startTileY ≤ ty ∧ ty < g.tileRange.endTileY)) :=
    fun h => hnv ((mem_visited g (tx, ty)).mpr h)
  by_cases hxr : g.tileRange.startTileX ≤ tx ∧ tx < g.tileRange.endTileX
  · have hyr : ¬ (g.tileRange.startTileY ≤ ty ∧ ty < g.tileRange.endTileY) :=
      fun h => hnot ⟨hxr, h⟩
    rcases row_culled g ty hz hfitY hty.1 hty.2 hyr with h | h
    · exact Or.inr (Or.inr (Or.inl h))
    · exact Or.inr (Or.inr (Or.inr h))
  · rcases column_culled g tx hz hfitX htx.1 htx.2 hxr with h | h
    · exact Or.inl h
    · exact Or.inr (Or.inl h)

/-- Witness of the amended C20: in `cornerViewGame` the viewport is
`[40, 56] x [40, 56]`, the ceilings are 2, the loops start at tile column 1,
and tile `(0, 0)` is not drawn. -/
theorem culled_tiles_off_screen_of_fit_witness :
    (0 < cornerViewGame.camera.Zoom ∧
      Int.ceil (cornerViewGame.rightWorld / (TileSize : ℚ)) < 2 ^ 63 ∧
      Int.ceil (cornerViewGame.bottomWorld / (TileSize : ℚ)) < 2 ^ 63 ∧
      ((0 : Int), (0 : Int)) ∉ cornerViewGame.visited) ∧
    (cornerViewGame.toScreenX (((0 : Int) * TileSize : Int) : ℚ)
        ≥ (cornerViewGame.screenWidth : ℚ) ∨
      cornerViewGame.toScreenX (((0 : Int) * TileSize : Int) : ℚ)
        + (TileSize : ℚ) * cornerViewGame.camera.Zoom ≤ 0 ∨
      cornerViewGame.toScreenY (((0 : Int) * TileSize : Int) : ℚ)
        ≥ (cornerViewGame.screenHeight : ℚ) ∨
      cornerViewGame.toScreenY (((0 : Int) * TileSize : Int) : ℚ)
        + (TileSize : ℚ) * cornerViewGame.camera.Zoom ≤ 0) := by
  have hz : 0 < cornerViewGame.camera.Zoom := by norm_num [cornerViewGame, NewCamera]
  have hfitX : Int.ceil (cornerViewGame.rightWorld / (TileSize : ℚ)) < 2 ^ 63 := by
    rw [Int.ceil_lt_iff]
    norm_num [Game.rightWorld, cornerViewGame, NewCamera, TileSize]
  have hfitY : Int.ceil (cornerViewGame.bottomWorld / (TileSize : ℚ)) < 2 ^ 63 := by
    rw [Int.ceil_lt_iff]
    norm_num [Game.bottomWorld, cornerViewGame, NewCamera, TileSize]
  have hfloor : Int.floor (cornerViewGame.leftWorld / (TileSize : ℚ)) = 1 := by
    rw [Int.floor_eq_iff]
    norm_num [Game.leftWorld, cornerViewGame, NewCamera, TileSize]
  have hedge : cornerViewGame.edgeToTile
      (Int.floor (cornerViewGame.leftWorld / (TileSize : ℚ))) = 1 := by
    rcases edgeToTile_spec cornerViewGame
      (Int.floor (cornerViewGame.leftWorld / (TileSize : ℚ))) (ne_of_gt hz) with h | h
    · rw [h.2.2, hfloor]
    · rw [hfloor] at h
      omega
  have hstart : cornerViewGame.tileRange.startTileX = 1 := by
    simp only [Game.tileRange, hedge]
    rfl
  have hnv : ((0 : Int), (0 : Int)) ∉ cornerViewGame.visited := by
    intro h
    have h1 := ((mem_visited cornerViewGame (0, 0)).mp h).1.1
    rw [hstart] at h1
    exact absurd h1 (by decide)
  exact ⟨⟨hz, hfitX, hfitY, hnv⟩,
    (culled_tiles_off_screen_of_fit cornerViewGame 0 0 hz hfitX hfitY ⟨by decide, by decide⟩
      ⟨by decide, by decide⟩ hnv).2⟩

/-! ## Drag scenario -/

set_option maxHeartbeats 4000000 in
theorem drag_scenario_final_position :
    (mainGame.run dragScenarioFrames).camera.X = 612 ∧
    (mainGame.run dragScenarioFrames).camera.Y = 512 := by
  norm_num [Game.run, dragScenarioFrames, Game.Update, Input.Update, Input.HandleZoom,
    Camera.Update, Camera.beforeClamp, Camera.panStep, Camera.dragStep, Camera.zoomStep,
    Camera.clampStep, mainGame, mainWorld, pointerFrame, NewCamera, NewInput,
    DefaultConfig, TileSize]

theorem mainGame_position : mainGame.camera.X = 512 ∧ mainGame.camera.Y = 512 := by
  norm_num [mainGame, NewCamera, TileSize]

/-- Counterexample to C13 as stated: after the press at (400, 300) and the
10 dragged frames to (300, 300) the camera `X` is not 100 less than the 512
it started from (it is 612). -/
theorem drag_scenario_counterexample :
    mainGame.camera.X = 512 ∧
    (mainGame.run dragScenarioFrames).camera.X ≠ mainGame.camera.X - 100 := by
  rw [drag_scenario_final_position.1, mainGame_position.1]
  norm_num

/-- C13 (drag scenario), amended: in a 32 x 32 world with the default config,
camera at (512, 512), zoom 1 and zero velocity, pressing at pointer
(400, 300) and moving the pointer 10 px per frame to (300, 300) over 10
dragged frames makes the camera `X` increase by 100, from 512 to 612, while
`Y` is unchanged. -/
theorem drag_scenario_camera_moves_right :
    mainGame.camera.X = 512 ∧ mainGame.camera.Y = 512 ∧
    (mainGame.run dragScenarioFrames).camera.X = mainGame.camera.X + 100 ∧
    (mainGame.run dragScenarioFrames).camera.Y = mainGame.camera.Y := by
  rw [drag_scenario_final_position.1, drag_scenario_final_position.2, mainGame_position.1,
    mainGame_position.2]
  norm_num

/-! ## Zoom saturation -/

theorem run_replicate_succ (g : Game) (h : Host) (n : Nat) :
    g.run (List.replicate (n + 1) h) = (g.run (List.replicate n h)).Update h := by
  unfold Game.run
  rw [List.replicate_succ', List.foldl_append]
  rfl

theorem game_update_config (g : Game) (h : Host) : (g.Update h).config = g.config := rfl

theorem game_update_ZoomVel (g : Game) (h : Host) :
    (g.Update h).camera.ZoomVel =
      (g.camera.ZoomVel + h.wheelY * (g.config.ZoomSpeed : ℚ) * 0.001)
        * (1 - (g.config.ZoomFriction : ℚ) * 0.01) := by
  simp only [Game.Update, update_ZoomVel, handleZoom_ZoomVel]

theorem game_update_Zoom (g : Game) (h : Host) :
    (g.Update h).camera.Zoom =
      min ((g.config.MaxZoom : ℚ) * 0.1)
        (max ((g.config.MinZoom : ℚ) * 0.1)
          (g.camera.Zoom + (g.Update h).camera.ZoomVel)) := by
  rw [game_update_ZoomVel]
  simp only [Game.Update, update_Zoom, handleZoom_ZoomVel, handleZoom_Zoom]

theorem wheel_up_step (g : Game) (hc : g.config = DefaultConfig)
    (hv : 0 ≤ g.camera.ZoomVel) :
    (0.008 : ℚ) ≤ (g.Update wheelUpFrame).camera.ZoomVel ∧
    (g.Update wheelUpFrame).camera.Zoom =
      min 5 (max 0.5 (g.camera.Zoom + (g.Update wheelUpFrame).camera.ZoomVel)) := by
  constructor
  · rw [game_update_ZoomVel, hc]
    norm_num [DefaultConfig, wheelUpFrame]
    linarith
  · rw [game_update_Zoom, hc]
    norm_num [DefaultConfig]

theorem wheel_up_invariant (n : Nat) :
    (mainGame.run (List.replicate n wheelUpFrame)).config = DefaultConfig ∧
    0 ≤ (mainGame.run (List.replicate n wheelUpFrame)).camera.ZoomVel ∧
    (mainGame.run (List.replicate n wheelUpFrame)).camera.Zoom ≤ 5 ∧
    (5 ≤ (mainGame.run (List.replicate n wheelUpFrame)).camera.Zoom ∨
      1 + 0.008 * (n : ℚ) ≤ (mainGame.run (List.replicate n wheelUpFrame)).camera.Zoom) := by
  induction n with
  | zero =>
    refine ⟨rfl, ?_, ?_, Or.inr ?_⟩ <;>
      norm_num [Game.run, mainGame, NewCamera]
  | succ n ih =>
    obtain ⟨hc, hv, hle, hge⟩ := ih
    rw [run_replicate_succ]
    obtain ⟨hv', hz'⟩ := wheel_up_step _ hc hv
    refine ⟨by rw [game_update_config, hc], by linarith, ?_, ?_⟩
    · rw [hz']
      exact min_le_left _ _
    · rw [hz']
      rcases hge with h5 | hlin
      · left
        exact le_min (le_refl 5) (le_max_of_le_right (by linarith))
      · by_cases hbig : (5 : ℚ) ≤ (mainGame.run (List.replicate n wheelUpFrame)).camera.Zoom
            + ((mainGame.run (List.replicate n wheelUpFrame)).Update wheelUpFrame).camera.ZoomVel
        · left
          exact le_min (le_refl 5) (le_max_of_le_right hbig)
        · right
          push_cast
          exact le_min (by linarith) (le_max_of_le_right (by linarith))

theorem wheel_up_stays (n : Nat)
    (h : (mainGame.run (List.replicate n wheelUpFrame)).camera.Zoom = 5) :
    (mainGame.run (List.replicate (n + 1) wheelUpFrame)).camera.Zoom = 5 := by
  obtain ⟨hc, hv, -, -⟩ := wheel_up_invariant n
  rw [run_replicate_succ]
  obtain ⟨hv', hz'⟩ := wheel_up_step _ hc hv
  rw [hz', h]
  exact le_antisymm (min_le_left _ _) (le_min (le_refl 5) (le_max_of_le_right (by linarith)))

/-- C19 (zoom saturation): starting from the initial game (zoom 1.0, zoom
velocity 0, default config) and applying the wheel delta `+1` on every frame,
with no other input, there is a frame `n0 ≤ 10000` (500 will do) such that
`Zoom = MaxZoom*0.1 = 5.0` after every frame `n` with `n0 ≤ n ≤ 10000`; the
zoom never exceeds 5.0, and once it is 5.0 it is 5.0 after every later frame. -/
theorem zoom_saturates :
    (DefaultConfig.MaxZoom : ℚ) * 0.1 = 5.0 ∧
    (∃ n0 : Nat, n0 ≤ 10000 ∧ ∀ n : Nat, n0 ≤ n → n ≤ 10000 →
      (mainGame.run (List.replicate n wheelUpFrame)).camera.Zoom
        = (DefaultConfig.MaxZoom : ℚ) * 0.1) ∧
    (∀ n : Nat, (mainGame.run (List.replicate n wheelUpFrame)).camera.Zoom ≤ 5.0) ∧
    (∀ n m : Nat, n ≤ m →
      (mainGame.run (List.replicate n wheelUpFrame)).camera.Zoom = 5.0 →
      (mainGame.run (List.replicate m wheelUpFrame)).camera.Zoom = 5.0) := by
  have h5 : (DefaultConfig.MaxZoom : ℚ) * 0.1 = 5.0 := by norm_num [DefaultConfig]
  have h50 : (5.0 : ℚ) = 5 := by norm_num
  refine ⟨h5, ⟨500, by decide, ?_⟩, ?_, ?_⟩
  · intro n hn _
    obtain ⟨-, -, hle, hge⟩ := wheel_up_invariant n
    rw [h5, h50]
    apply le_antisymm hle
    rcases hge with h | h
    · exact h
    · have hn' : (500 : ℚ) ≤ (n : ℚ) := by exact_mod_cast hn
      linarith
  · intro n
    rw [h50]
    exact (wheel_up_invariant n).2.2.1
  · intro n m hnm h
    rw [h50] at h ⊢
    induction m with
    | zero =>
      have : n = 0 := Nat.le_zero.mp hnm
      subst this
      exact h
    | succ m ih =>
      rcases Nat.lt_or_ge n (m + 1) with hlt | hge
      · exact wheel_up_stays m (ih (Nat.lt_succ_iff.mp hlt))
      · have : n = m + 1 := le_antisymm hnm hge
        subst this
        exact h

end game

/-! # Theorems about package `rand` -/

namespace rand

theorem wrap_of_in_range (n : Int) (h1 : minInt ≤ n) (h2 : n ≤ maxInt) : wrap n = n := by
  unfold wrap
  simp only [minInt, maxInt, intBits] at *
  norm_num at *
  omega

/-- Without overflow `IntRange` does what its comment says: for `int` values
`min < max` whose difference fits in an `int`, and a generator that honours
the contract of `IntN`, the result is `min + IntN(max - min)` and lies in
`[min, max)`. -/
theorem intRange_of_no_overflow (r : RNG) (min max : Int)
    (hmin : minInt ≤ min) (hmax : max ≤ maxInt) (hlt : min < max)
    (hfit : max - min ≤ maxInt)
    (hdraw : ∀ k, 0 < k → 0 ≤ r.draw k ∧ r.draw k < k) :
    r.IntRange min max = some (min + r.draw (max - min)) ∧
    min ≤ min + r.draw (max - min) ∧ min + r.draw (max - min) < max := by
  have hk : wrap (max - min) = max - min :=
    wrap_of_in_range _ (by simp only [minInt, intBits] at *; norm_num at *; omega) hfit
  obtain ⟨hd0, hd1⟩ := hdraw (max - min) (by omega)
  have hv : wrap (min + r.draw (max - min)) = min + r.draw (max - min) :=
    wrap_of_in_range _ (by omega) (by omega)
  refine ⟨?_, by omega, by omega⟩
  unfold RNG.IntRange RNG.srcIntN
  rw [if_neg (by omega), hk, if_neg (by omega)]
  simp only [hv]

theorem intRange_of_le (r : RNG) (min max : Int) (h : max ≤ min) :
    r.IntRange min max = none := by
  unfold RNG.IntRange
  rw [if_pos h]

/-- C15, the code at the failing input: `IntRange(math.MinInt, math.MaxInt)`
has `max > min`, yet `max - min` wraps around to `-1` and the call of `IntN`
panics, whatever the generator. -/
theorem intRange_full_range_panics (r : RNG) :
    minInt < maxInt ∧ wrap (maxInt - minInt) = -1 ∧ r.IntRange minInt maxInt = none := by
  have h1 : minInt < maxInt := by decide
  have h2 : wrap (maxInt - minInt) = -1 := by decide
  refine ⟨h1, h2, ?_⟩
  unfold RNG.IntRange RNG.srcIntN
  rw [if_neg (not_le.mpr h1), h2]
  rfl

end rand
